import Mathlib

/-!
Verification of the IndexedDB-Promises transaction-lifetime-extension polyfill

Shallow embedding of `src/polyfill.js`: the transaction state machine with
`waitUntil`, the generation counter (`_waitingIndex`), the composite waiting
promise, the keep-alive spin / deferred-operation queue, the `IDBRequestProxy`,
and the hooked cursor step methods.  The host IndexedDB store is the external
collaborator; the parts of its contract the polyfill relies on (event delivery,
FIFO request processing, `abort()` semantics) are modelled explicitly.
-/

/-- JavaScript values, as far as the polyfill observes them: `undefined`,
`null`, opaque test values (`tag`), and exception objects carrying a `name`
and `message` (`makeDOMException` in the source builds an `Error` with a
`name` field). -/
inductive JSVal where
  | undef : JSVal
  | nullv : JSVal
  | tag : Nat → JSVal
  | err : String → String → JSVal
deriving Repr, DecidableEq

/-- Settlement outcome of a promise. -/
inductive Outcome where
  | fulfilled : JSVal → Outcome
  | rejected : JSVal → Outcome
deriving Repr, DecidableEq

/-- Status of a promise in the heap: pending, or settled with an outcome. -/
inductive PStatus where
  | pending : PStatus
  | settled : Outcome → PStatus
deriving Repr, DecidableEq

/-- The polyfill's internal `tx._state` field (`src/polyfill.js` lines 57-61):
`'maybeActive'` until `waitUntil` is first called or the transaction
completes, then `'waiting'`, `'committing'`, `'finished'`. -/
inductive TxInternal where
  | maybeActive : TxInternal
  | waiting : TxInternal
  | committing : TxInternal
  | finished : TxInternal
deriving Repr, DecidableEq

/-- The value reported by the `state` getter
(`src/polyfill.js` lines 96-110). -/
inductive TxReported where
  | active : TxReported
  | inactive : TxReported
  | waiting : TxReported
  | committing : TxReported
  | finished : TxReported
deriving Repr, DecidableEq

/-- Reactions registered on a promise, as the polyfill creates them.
`chain inner tgt` embeds `src.then(function() \x7b return p; \x7d)` with
result promise `tgt`, where `inner` is the promise the callback will return
when it eventually runs (the composite construction at line 129 — note the
callback closes over the variable `p`, which that very line reassigns to the
`.then` result before the callback can run, so there `inner` is `tgt`
itself); `follow tgt` is the resolve-with-a-promise step (`tgt` adopts the
returned promise's outcome once it settles); `onCommit g` embeds the
fulfillment handler at lines 147-152 captured with generation `g`;
`onRejectAbort g` embeds the rejection handler at lines 153-158. -/
inductive Reaction where
  | chain : Nat → Nat → Reaction
  | follow : Nat → Reaction
  | onCommit : Nat → Reaction
  | onRejectAbort : Nat → Reaction
deriving Repr, DecidableEq

/-- The augmented transaction record (`src/polyfill.js` lines 49-82):
the fields installed by the hooked `IDBDatabase.prototype.transaction`,
plus the host-side data the polyfill reads (`mode`, the database's store
names for `versionchange`, and the host transaction's `error`). -/
structure Tx where
  _state : TxInternal
  _scope : List String
  _waitingIndex : Nat
  _waitingPromise : Option Nat
  _queue : Option (List Nat)
  mode : String
  dbStores : List String
  error : Option JSVal
deriving Repr, DecidableEq

/-- World: the promise heap, registered reactions (in registration order),
the microtask queue, the transaction, and the host-side flags the polyfill
interacts with. `probePending` records that a keep-alive probe request is
outstanding; `hostAborted` that `abort()` has been called on the host
transaction (its abort event not yet delivered); `hostActive` whether a probe
issued right now would succeed (the host transaction is active);
`executedJobs` the deferred jobs that have actually been run by the spin
drain; `roots` the environment-created promises a test may settle. -/
structure World where
  promises : List PStatus
  reactions : List (Nat × Reaction)
  micro : List (Reaction × Outcome)
  tx : Tx
  txPromise : Nat
  probePending : Bool
  hostAborted : Bool
  hostActive : Bool
  executedJobs : List Nat
  roots : List Nat
deriving Repr, DecidableEq

namespace World

/-- Look up a promise's status (out-of-range ids read as pending;
the model only ever reads allocated ids). -/
def pstatus (w : World) (id : Nat) : PStatus :=
  w.promises.getD id .pending

/-- Allocate a fresh promise with the given status; returns its id. -/
def alloc (w : World) (st : PStatus) : World × Nat :=
  ({ w with promises := w.promises ++ [st] }, w.promises.length)

/-- Set a promise's status. -/
def setStatus (w : World) (id : Nat) (st : PStatus) : World :=
  { w with promises := w.promises.set id st }

/-- Settle promise `id` with outcome `o`: a no-op if already settled;
otherwise record the outcome and move every reaction registered on `id`
(in registration order) to the microtask queue. -/
def settle (w : World) (id : Nat) (o : Outcome) : World :=
  match w.pstatus id with
  | .settled _ => w
  | .pending =>
    let fired := (w.reactions.filter (fun r => r.1 = id)).map (fun r => (r.2, o))
    { w.setStatus id (.settled o) with
      reactions := w.reactions.filter (fun r => r.1 ≠ id),
      micro := w.micro ++ fired }

/-- Register a reaction on promise `src`: queued immediately as a microtask
if `src` is already settled (as `Promise.prototype.then` does), recorded
otherwise. -/
def register (w : World) (src : Nat) (r : Reaction) : World :=
  match w.pstatus src with
  | .settled o => { w with micro := w.micro ++ [(r, o)] }
  | .pending => { w with reactions := w.reactions ++ [(src, r)] }

/-- Embedding of `try \x7b $this.abort(); \x7d catch(_) \x7b\x7d` (line 157): the host
`abort()` throws when the transaction is already finished (or already
aborting); the polyfill swallows that.  Otherwise the host transaction is now
aborting: its abort event will fire later, and no further request on it
succeeds. -/
def doAbort (w : World) : World :=
  if w.tx._state = .finished ∨ w.hostAborted then w
  else { w with hostAborted := true }

/-- Run one reaction against its delivering outcome (one microtask).

* `chain inner tgt`: the composite `q.then(function() \x7b return p; \x7d)`.
  If `q` fulfilled, the callback runs and returns the promise `inner`, so
  `tgt` is resolved with it per the promise resolution procedure: when
  `inner` is `tgt` itself (self-resolution), `tgt` rejects with a
  `TypeError` (ECMA-262: "If SameValue(resolution, promise) is true, reject
  promise with a TypeError"); otherwise `tgt` follows `inner`.  If `q`
  rejected, the callback is not invoked and `tgt` rejects with the same
  reason.
* `follow tgt`: `tgt` settles with the adopted outcome.
* `onCommit g` (lines 147-152): on fulfillment, if the captured generation
  `g` still equals the live `_waitingIndex`, set `_state := 'committing'`;
  otherwise ignore ("Ignore if we were replaced").
* `onRejectAbort g` (lines 153-158): on rejection, if `g` still equals the
  live `_waitingIndex`, `try \x7b abort() \x7d catch(_) \x7b\x7d`. -/
def runReaction (w : World) (r : Reaction) (o : Outcome) : World :=
  match r, o with
  | .chain inner tgt, .fulfilled _ =>
    if inner = tgt then
      w.settle tgt (.rejected (.err "TypeError" "Chaining cycle detected for promise"))
    else w.register inner (.follow tgt)
  | .chain _ tgt, .rejected v => w.settle tgt (.rejected v)
  | .follow tgt, _ => w.settle tgt o
  | .onCommit g, .fulfilled _ =>
    if g = w.tx._waitingIndex then
      { w with tx := { w.tx with _state := .committing } }
    else w
  | .onCommit _, .rejected _ => w
  | .onRejectAbort g, .rejected _ =>
    if g = w.tx._waitingIndex then w.doAbort else w
  | .onRejectAbort _, .fulfilled _ => w

/-- Process the front microtask, if any. -/
def stepMicro (w : World) : World :=
  match w.micro with
  | [] => w
  | (r, o) :: rest => runReaction { w with micro := rest } r o

/-- Run up to `fuel` microtasks. -/
def drainMicro : Nat → World → World
  | 0, w => w
  | fuel + 1, w =>
    match w.micro with
    | [] => w
    | (r, o) :: rest => drainMicro fuel (runReaction { w with micro := rest } r o)

end World

/-- Embedding of `getStore` (lines 84-92): the effective scope it picks a store from —
`tx.db.objectStoreNames` for a `versionchange` transaction, `tx._scope`
otherwise.  `getStore` throws `Error('No object stores')` exactly when this
list is empty. -/
def effectiveScope (tx : Tx) : List String :=
  if tx.mode = "versionchange" then tx.dbStores else tx._scope

/-- Embedding of the `state` getter (lines 96-110).  While `_state` is `'maybeActive'`
it probes: `getStore` plus an unhooked `get` inside `try`, returning
`'active'` on success and `'inactive'` on any throw (including the empty
scope throw from `getStore`, which the `try` also catches).  Otherwise it
reports `_state` directly. -/
def stateGetter (w : World) : TxReported :=
  match w.tx._state with
  | .maybeActive =>
    if (effectiveScope w.tx).isEmpty then .inactive
    else if w.hostActive then .active else .inactive
  | .waiting => .waiting
  | .committing => .committing
  | .finished => .finished

/-- Result of a `waitUntil` call: the returned promise id, or a synchronously
thrown exception. -/
inductive CallResult where
  | returned : Nat → CallResult
  | threw : JSVal → CallResult
deriving Repr, DecidableEq

/-- Embedding of `waitUntil` (lines 118-161), step by step.

* Guard: if the reported state is `'committing'` or `'finished'`, return a
  fresh promise rejected with the `InvalidStateError` DOMException (lines
  121-125); nothing else is touched.
* If `_state` is already `'waiting'`, line 129 runs
  `p = this._waitingPromise.then(function() \x7b return p; \x7d)`.  The
  callback closes over the parameter binding `p`, and the assignment
  reassigns `p` to the `.then` result — the composite itself — before the
  callback can ever run; so the callback returns the composite, and the
  supplied awaitable is dropped: the registered reaction is
  `chain comp comp`, not `chain supplied comp`.  When `_waitingPromise` is
  `null` (reachable only after the empty-scope throw left `_state` at
  `'waiting'`) the `.then` call on `null` throws a `TypeError`.
* Otherwise (newly waiting): set `_state := 'waiting'`, `_queue := []`
  (lines 132-133), then `getStore` (line 134) — which throws
  `Error('No object stores')` on an empty effective scope, propagating out
  of `waitUntil` — then start the spin (lines 135-142): drain the (empty)
  queue and issue the first probe.
* Finally (lines 145-160): increment `_waitingIndex`, store the composite as
  `_waitingPromise`, register the generation-tagged fulfillment and rejection
  handlers on it, and return `Promise.resolve(this._waitingPromise)` — which,
  the argument being a native promise, is that very promise. -/
def waitUntilFn (w : World) (p : Nat) : World × CallResult :=
  if stateGetter w = .committing ∨ stateGetter w = .finished then
    let (w1, pid) := w.alloc (.settled (.rejected
      (.err "InvalidStateError"
        "The transaction is already committing or finished.")))
    (w1, .returned pid)
  else
    let step1 : World × Option Nat × Option JSVal :=
      if w.tx._state = .waiting then
        match w.tx._waitingPromise with
        | none => (w, none, some (.err "TypeError" "this._waitingPromise is null"))
        | some q =>
          let (w1, comp) := w.alloc .pending
          (w1.register q (.chain comp comp), some comp, none)
      else
        let w1 := { w with tx := { w.tx with _state := .waiting, _queue := some [] } }
        if (effectiveScope w1.tx).isEmpty then
          (w1, none, some (.err "Error" "No object stores"))
        else
          let w2 := { w1 with
            tx := { w1.tx with _queue := some [] },
            executedJobs := w1.executedJobs ++ (w1.tx._queue.getD []),
            probePending := true }
          (w2, some p, none)
    match step1 with
    | (w1, _, some e) => (w1, .threw e)
    | (w1, some comp, none) =>
      let index := w1.tx._waitingIndex + 1
      let w2 := { w1 with tx := { w1.tx with _waitingIndex := index,
                                             _waitingPromise := some comp } }
      let w3 := (w2.register comp (.onCommit index)).register comp (.onRejectAbort index)
      (w3, .returned comp)
    | (w1, none, none) => (w1, .threw .undef)

/-- Embedding of `tx.promise()` (lines 164-168): `Promise.resolve(this._promise)`, which
is `this._promise` itself. -/
def promiseFn (w : World) : Nat :=
  w.txPromise

/-- Events driving the world: caller actions, environment promise
settlements, and host (store) signal deliveries. -/
inductive Ev where
  | newRoot : Ev
  | settleRoot : Nat → Outcome → Ev
  | callWaitUntil : Nat → Ev
  | enqueueJob : Nat → Ev
  | probeSuccess : Ev
  | taskEnd : Ev
  | hostComplete : Ev
  | hostAbortEvent : Ev
  | micro : Ev
deriving Repr, DecidableEq

/-- Initial world for a transaction opened by the hooked
`IDBDatabase.prototype.transaction` (lines 49-82): `_state = 'maybeActive'`,
scope and mode recorded, `_waitingIndex = 0`, no waiting promise, no queue,
`_promise` freshly allocated and pending (it settles only from the host's
`complete`/`abort` events).  The host transaction is active during the
creation task. -/
def mkWorld (scope : List String) (mode : String) (dbStores : List String) : World :=
  { promises := [.pending]
    reactions := []
    micro := []
    tx := { _state := .maybeActive, _scope := scope, _waitingIndex := 0,
            _waitingPromise := none, _queue := none,
            mode := mode, dbStores := dbStores, error := none }
    txPromise := 0
    probePending := false
    hostAborted := false
    hostActive := true
    executedJobs := []
    roots := [] }

/-- Apply one event.  Guards mirror host behaviour:

* `newRoot`: the environment allocates a pending promise it may later settle.
* `settleRoot p o`: the environment settles one of its promises.
* `callWaitUntil p`: the caller invokes `waitUntil(p)` (result value dropped
  here; `waitUntilFn` itself exposes it).
* `enqueueJob j`: the hooked request methods push a deferred job while the
  reported state is `'waiting'` (lines 316-327); otherwise the op dispatches
  directly and nothing is queued here (job bodies are treated opaquely in
  this machine; the store-level model below refines them).
* `probeSuccess`: the outstanding spin probe's `onsuccess` fires (lines
  135-142) — only possible while the host transaction is neither aborting
  nor finished; it drains the queue FIFO then re-probes iff `_state` is
  still `'waiting'`.
* `taskEnd`: the unit of synchronous work ends; the host transaction
  deactivates.
* `hostComplete`: the host fires `complete` (lines 69-72): `_state :=
  'finished'` and `_promise` resolves.
* `hostAbortEvent`: the host fires `abort` (lines 73-76), possible once
  `abort()` was called: the host sets `error` (`null` for an explicit
  abort), `_state := 'finished'`, `_promise` rejects with `tx.error`.
* `micro`: run one microtask. -/
def applyEv (w : World) (e : Ev) : World :=
  match e with
  | .newRoot =>
    let (w1, pid) := w.alloc .pending
    { w1 with roots := w1.roots ++ [pid] }
  | .settleRoot p o =>
    if p ∈ w.roots then w.settle p o else w
  | .callWaitUntil p => (waitUntilFn w p).1
  | .enqueueJob j =>
    if stateGetter w = .waiting then
      { w with tx := { w.tx with _queue := some (w.tx._queue.getD [] ++ [j]) } }
    else w
  | .probeSuccess =>
    if w.probePending ∧ ¬ w.hostAborted ∧ w.tx._state ≠ .finished then
      let jobs := w.tx._queue.getD []
      let w1 := { w with tx := { w.tx with _queue := some [] },
                         executedJobs := w.executedJobs ++ jobs }
      if w1.tx._state = .waiting then { w1 with probePending := true }
      else { w1 with probePending := false }
    else w
  | .taskEnd => { w with hostActive := false }
  | .hostComplete =>
    if w.tx._state ≠ .finished ∧ ¬ w.hostAborted then
      let w1 := { w with tx := { w.tx with _state := .finished } }
      w1.settle w1.txPromise (.fulfilled .undef)
    else w
  | .hostAbortEvent =>
    if w.hostAborted ∧ w.tx._state ≠ .finished then
      let w1 := { w with tx := { w.tx with _state := .finished, error := some .nullv } }
      w1.settle w1.txPromise (.rejected .nullv)
    else w
  | .micro => w.stepMicro

/-- Run a list of events in order. -/
def runEvents (w : World) : List Ev → World
  | [] => w
  | e :: es => runEvents (applyEv w e) es

/-- The DOMException produced by the `waitUntil` guard (lines 122-125). -/
def invalidStateErr : JSVal :=
  .err "InvalidStateError" "The transaction is already committing or finished."

namespace World

theorem setStatus_tx (w : World) (id : Nat) (st : PStatus) :
    (w.setStatus id st).tx = w.tx := rfl

theorem settle_tx (w : World) (id : Nat) (o : Outcome) :
    (w.settle id o).tx = w.tx := by
  unfold settle
  split <;> rfl

theorem register_tx (w : World) (src : Nat) (r : Reaction) :
    (w.register src r).tx = w.tx := by
  unfold register
  split <;> rfl

theorem settle_executedJobs (w : World) (id : Nat) (o : Outcome) :
    (w.settle id o).executedJobs = w.executedJobs := by
  unfold settle
  split <;> rfl

theorem register_executedJobs (w : World) (src : Nat) (r : Reaction) :
    (w.register src r).executedJobs = w.executedJobs := by
  unfold register
  split <;> rfl

theorem settle_hostAborted (w : World) (id : Nat) (o : Outcome) :
    (w.settle id o).hostAborted = w.hostAborted := by
  unfold settle
  split <;> rfl

theorem register_hostAborted (w : World) (src : Nat) (r : Reaction) :
    (w.register src r).hostAborted = w.hostAborted := by
  unfold register
  split <;> rfl

theorem doAbort_hostAborted (w : World) (h : w.hostAborted = true) :
    (w.doAbort).hostAborted = true := by
  unfold doAbort
  split <;> simp [h]

theorem runReaction_waitingIndex (w : World) (r : Reaction) (o : Outcome) :
    (w.runReaction r o).tx._waitingIndex = w.tx._waitingIndex := by
  unfold runReaction
  rcases r with _ | _ | _ | _ <;> rcases o with _ | _ <;>
    simp only [settle_tx, register_tx]
  · split <;> simp only [settle_tx, register_tx]
  · split <;> rfl
  · unfold doAbort
    split
    · split <;> rfl
    · rfl

theorem runReaction_executedJobs (w : World) (r : Reaction) (o : Outcome) :
    (w.runReaction r o).executedJobs = w.executedJobs := by
  unfold runReaction
  rcases r with _ | _ | _ | _ <;> rcases o with _ | _ <;>
    simp only [settle_executedJobs, register_executedJobs]
  · split <;> simp only [settle_executedJobs, register_executedJobs]
  · split <;> rfl
  · unfold doAbort
    split
    · split <;> rfl
    · rfl

theorem runReaction_hostAborted (w : World) (r : Reaction) (o : Outcome)
    (h : w.hostAborted = true) : (w.runReaction r o).hostAborted = true := by
  unfold runReaction
  rcases r with _ | _ | _ | _ <;> rcases o with _ | _ <;>
    simp only [settle_hostAborted, register_hostAborted, h]
  · split <;> simp only [settle_hostAborted, register_hostAborted, h]
  · split <;> simp [h]
  · split
    · exact doAbort_hostAborted _ h
    · exact h

end World

theorem World.pstatus_alloc (w : World) (st : PStatus) :
    (w.alloc st).1.pstatus (w.alloc st).2 = st := by
  simp [World.alloc, World.pstatus, List.getD_eq_getElem?_getD,
    List.getElem?_concat_length]

/-- C1.  Calling `waitUntil(p)` on a transaction whose state is
`'committing'` or `'finished'` returns a fresh, immediately rejected promise
carrying the `InvalidStateError` DOMException; the only change to the world
is that allocation — in particular the transaction record (its state
included) is unchanged. -/
theorem C1_waitUntil_rejected_when_committing_or_finished
    (w : World) (p : Nat)
    (h : w.tx._state = .committing ∨ w.tx._state = .finished) :
    (waitUntilFn w p).1
      = { w with promises := w.promises ++ [.settled (.rejected invalidStateErr)] } ∧
    (waitUntilFn w p).2 = .returned w.promises.length ∧
    (waitUntilFn w p).1.pstatus w.promises.length
      = .settled (.rejected invalidStateErr) ∧
    (waitUntilFn w p).1.tx = w.tx := by
  have hs : stateGetter w = .committing ∨ stateGetter w = .finished := by
    rcases h with h | h <;> simp [stateGetter, h]
  refine ⟨?_, ?_, ?_, ?_⟩ <;>
    simp [waitUntilFn, hs, World.alloc, invalidStateErr, World.pstatus,
      List.getD_eq_getElem?_getD, List.getElem?_concat_length]

/-- Witness for C1 at a concrete finished transaction. -/
theorem C1_waitUntil_rejected_witness :
    letI f0 : World :=
      { mkWorld ["store"] "readonly" [] with
        tx := { (mkWorld ["store"] "readonly" []).tx with _state := .finished } }
    (waitUntilFn f0 5).2 = .returned 1 ∧
    (waitUntilFn f0 5).1.pstatus 1 = .settled (.rejected invalidStateErr) ∧
    (waitUntilFn f0 5).1.tx = f0.tx := by
  letI f0 : World :=
    { mkWorld ["store"] "readonly" [] with
      tx := { (mkWorld ["store"] "readonly" []).tx with _state := .finished } }
  have h := C1_waitUntil_rejected_when_committing_or_finished f0 5 (Or.inr rfl)
  exact ⟨h.2.1 ▸ rfl, h.2.2.1, h.2.2.2⟩

theorem waitUntilFn_waitingIndex (w : World) (p : Nat) :
    (waitUntilFn w p).1.tx._waitingIndex = w.tx._waitingIndex ∨
    (waitUntilFn w p).1.tx._waitingIndex = w.tx._waitingIndex + 1 := by
  unfold waitUntilFn
  split
  · left; simp [World.alloc]
  · by_cases hw : w.tx._state = .waiting
    · cases hq : w.tx._waitingPromise with
      | none => left; simp [hw, hq]
      | some q => right; simp [hw, hq, World.register_tx, World.alloc]
    · by_cases he : (effectiveScope { w.tx with _state := .waiting, _queue := some [] }).isEmpty
      · left; simp [hw, he]
      · right; simp [hw, he, World.register_tx]

theorem stepMicro_waitingIndex (w : World) :
    (w.stepMicro).tx._waitingIndex = w.tx._waitingIndex := by
  unfold World.stepMicro
  split
  · rfl
  · rw [World.runReaction_waitingIndex]

/-- Every accepted `waitUntil` — one whose guard passes and which returns
normally — increments `_waitingIndex` by exactly one (line 145). -/
theorem waitUntilFn_accept_increments (w : World) (p : Nat) (pid : Nat)
    (hg : ¬ (stateGetter w = .committing ∨ stateGetter w = .finished))
    (hr : (waitUntilFn w p).2 = .returned pid) :
    (waitUntilFn w p).1.tx._waitingIndex = w.tx._waitingIndex + 1 := by
  unfold waitUntilFn at hr ⊢
  rw [if_neg hg] at hr ⊢
  by_cases hw : w.tx._state = .waiting
  · cases hq : w.tx._waitingPromise with
    | none => rw [hw] at hr; simp [hq] at hr
    | some q => simp [hw, hq, World.register_tx, World.alloc]
  · by_cases he : (effectiveScope { w.tx with _state := .waiting, _queue := some [] }).isEmpty
    · simp [hw, he] at hr
    · simp [hw, he, World.register_tx]

/-- A settlement handler whose captured generation differs from the live
`_waitingIndex` is a no-op (the "Ignore if we were replaced" checks,
lines 149 and 155). -/
theorem runReaction_stale_generation (w : World) (g : Nat) (o : Outcome)
    (h : g ≠ w.tx._waitingIndex) :
    w.runReaction (.onCommit g) o = w ∧ w.runReaction (.onRejectAbort g) o = w := by
  cases o <;> simp [World.runReaction, h]

theorem register_mem_reactions (w : World) (s : Nat) (r : Reaction)
    (x : Nat × Reaction) (h : x ∈ w.reactions) : x ∈ (w.register s r).reactions := by
  unfold World.register
  split
  · exact h
  · simp only [List.mem_append]; exact Or.inl h

theorem register_mem_micro (w : World) (s : Nat) (r : Reaction)
    (x : Reaction × Outcome) (h : x ∈ w.micro) : x ∈ (w.register s r).micro := by
  unfold World.register
  split
  · simp only [List.mem_append]; exact Or.inl h
  · exact h

/-- Calling `waitUntil` while already `'waiting'` is independent of its
argument: the callback at line 129 closes over the variable `p`, which that
line reassigns to the `.then` result before the callback can run, so the
supplied awaitable is dropped and the call's entire effect — and return
value — is the same whatever promise was passed. -/
theorem waitUntilFn_ignores_supplied (w : World) (p p2 q : Nat)
    (hw : w.tx._state = .waiting) (hq : w.tx._waitingPromise = some q) :
    waitUntilFn w p = waitUntilFn w p2 := by
  have hg : ¬ (stateGetter w = .committing ∨ stateGetter w = .finished) := by
    simp [stateGetter, hw]
  unfold waitUntilFn
  rw [if_neg hg, if_neg hg]
  simp [hw, hq]

/-- Calling `waitUntil(p)` while already `'waiting'` on composite `q`
(line 129): a fresh promise `comp` (id `w.promises.length`) becomes the
unique tracked waiting promise and is what the call returns — but the
reaction registered on `q` is `chain comp comp` (the callback closes over
the reassigned variable and will return the composite itself), not a chain
onto the supplied awaitable. -/
theorem waitUntilFn_chains_composite (w : World) (p q : Nat)
    (hw : w.tx._state = .waiting) (hq : w.tx._waitingPromise = some q) :
    (waitUntilFn w p).2 = .returned w.promises.length ∧
    (waitUntilFn w p).1.tx._waitingPromise = some w.promises.length ∧
    ((q, Reaction.chain w.promises.length w.promises.length)
        ∈ (waitUntilFn w p).1.reactions ∨
      ∃ o, (Reaction.chain w.promises.length w.promises.length, o)
        ∈ (waitUntilFn w p).1.micro) := by
  have hg : ¬ (stateGetter w = .committing ∨ stateGetter w = .finished) := by
    simp [stateGetter, hw]
  unfold waitUntilFn
  rw [if_neg hg]
  refine ⟨?_, ?_, ?_⟩
  · simp [hw, hq, World.alloc]
  · simp [hw, hq, World.register_tx, World.alloc]
  · simp only [hw, hq, World.alloc, if_pos]
    have hbase : (q, Reaction.chain w.promises.length w.promises.length) ∈
        (({ w with promises := w.promises ++ [PStatus.pending] } : World).register q
          (.chain w.promises.length w.promises.length)).reactions ∨
        ∃ o, (Reaction.chain w.promises.length w.promises.length, o) ∈
          (({ w with promises := w.promises ++ [PStatus.pending] } : World).register q
            (.chain w.promises.length w.promises.length)).micro := by
      unfold World.register
      split
      · rename_i o heq
        right; exact ⟨o, by simp⟩
      · left; simp
    rcases hbase with h | ⟨o, h⟩
    · left
      exact register_mem_reactions _ _ _ _ (register_mem_reactions _ _ _ _ h)
    · right
      exact ⟨o, register_mem_micro _ _ _ _ (register_mem_micro _ _ _ _ h)⟩

/-- No event ever decreases the generation counter `_waitingIndex`. -/
theorem applyEv_waitingIndex_mono (w : World) (e : Ev) :
    w.tx._waitingIndex ≤ (applyEv w e).tx._waitingIndex := by
  cases e with
  | newRoot => simp [applyEv, World.alloc]
  | settleRoot p o =>
    simp only [applyEv]
    split
    · rw [World.settle_tx]
    · exact le_refl _
  | callWaitUntil p =>
    rcases waitUntilFn_waitingIndex w p with h | h <;> simp [applyEv, h]
  | enqueueJob j =>
    simp only [applyEv]
    split <;> simp
  | probeSuccess =>
    simp only [applyEv]
    split
    · split <;> simp
    · exact le_refl _
  | taskEnd => exact le_refl _
  | hostComplete =>
    simp only [applyEv]
    split
    · rw [World.settle_tx]
    · exact le_refl _
  | hostAbortEvent =>
    simp only [applyEv]
    split
    · rw [World.settle_tx]
    · exact le_refl _
  | micro => rw [applyEv, stepMicro_waitingIndex]

/-- The failing input for C2: a transaction over one store, two environment
promises (ids 1 and 2), `waitUntil(1)` then `waitUntil(2)` before either
settles, then promise 1 — the first awaitable — fulfills and all resulting
microtasks run.  The second call's composite has id 3. -/
def c2AfterFirstFulfills : World :=
  runEvents (mkWorld ["store"] "readonly" [])
    [.newRoot, .newRoot, .callWaitUntil 1, .callWaitUntil 2,
     .settleRoot 1 (.fulfilled (.tag 0)), .micro, .micro, .micro, .micro, .micro]

/-- Continuation of the C2 failing input: the host delivers the abort
event requested by the generation-live rejection handler. -/
def c2Aborted : World := runEvents c2AfterFirstFulfills [.hostAbortEvent]

/-- Continuation of the C2 failing input: the supplied second awaitable
finally fulfills — to no effect. -/
def c2LateSecondSettle : World :=
  runEvents c2Aborted [.settleRoot 2 (.fulfilled (.tag 9)), .micro, .micro, .micro]

/-- C2 (divergence).  The true parts hold: the generation counter only
increases, each accepted `waitUntil` increments it, and a settlement handler
captured with a stale generation is a no-op.  But the chaining part fails on
the code: at line 129 the callback `function() \x7b return p; \x7d` closes over
the variable `p`, which that very line reassigns to the `.then` result — the
composite itself — before the callback can run.  So the composite is not
`existing.then(() => supplied)`: the supplied awaitable is ignored entirely
(the already-waiting call's effect is independent of its argument), and the
registered reaction is a self-chain.  At the failing input — two `waitUntil`
calls, then the first awaitable fulfills — the composite (id 3) rejects with
`TypeError` (resolving a promise with itself), the live-generation rejection
handler aborts the host transaction while the supplied awaitable (id 2) is
still pending, the transaction finishes aborted, and the second awaitable's
later fulfillment changes nothing: the earlier awaitable's settlement alone
decides the outcome, and it is abort, never commit. -/
theorem C2_generation_counter_governs_commit :
    (∀ (w : World) (e : Ev), w.tx._waitingIndex ≤ (applyEv w e).tx._waitingIndex) ∧
    (∀ (w : World) (p pid : Nat),
      ¬ (stateGetter w = .committing ∨ stateGetter w = .finished) →
      (waitUntilFn w p).2 = .returned pid →
      (waitUntilFn w p).1.tx._waitingIndex = w.tx._waitingIndex + 1) ∧
    (∀ (w : World) (g : Nat) (o : Outcome), g ≠ w.tx._waitingIndex →
      w.runReaction (.onCommit g) o = w ∧ w.runReaction (.onRejectAbort g) o = w) ∧
    (∀ (w : World) (p p2 q : Nat),
      w.tx._state = .waiting → w.tx._waitingPromise = some q →
      waitUntilFn w p = waitUntilFn w p2) ∧
    (∀ (w : World) (p q : Nat), w.tx._state = .waiting → w.tx._waitingPromise = some q →
      (waitUntilFn w p).2 = .returned w.promises.length ∧
      (waitUntilFn w p).1.tx._waitingPromise = some w.promises.length ∧
      ((q, Reaction.chain w.promises.length w.promises.length)
          ∈ (waitUntilFn w p).1.reactions ∨
        ∃ o, (Reaction.chain w.promises.length w.promises.length, o)
          ∈ (waitUntilFn w p).1.micro)) ∧
    (c2AfterFirstFulfills.pstatus 3
        = .settled (.rejected (.err "TypeError" "Chaining cycle detected for promise")) ∧
      c2AfterFirstFulfills.hostAborted = true ∧
      c2AfterFirstFulfills.pstatus 2 = .pending ∧
      c2Aborted.tx._state = .finished ∧
      c2Aborted.pstatus 0 = .settled (.rejected .nullv) ∧
      c2LateSecondSettle.tx._state = .finished ∧
      c2LateSecondSettle.tx._state ≠ .committing) :=
  ⟨applyEv_waitingIndex_mono,
   waitUntilFn_accept_increments,
   runReaction_stale_generation,
   waitUntilFn_ignores_supplied,
   waitUntilFn_chains_composite,
   by decide, by decide, by decide, by decide, by decide, by decide, by decide⟩

/-- Witness for C2 at concrete inputs: the stale-generation handler check,
the accepted-call increment, and the argument-independence of an
already-waiting call, instantiated on concrete worlds. -/
theorem C2_generation_counter_witness :
    c2AfterFirstFulfills.runReaction (.onCommit 1) (.fulfilled (.tag 0))
        = c2AfterFirstFulfills ∧
    (waitUntilFn (runEvents (mkWorld ["store"] "readonly" []) [.newRoot]) 1).1.tx._waitingIndex
        = 1 ∧
    waitUntilFn (runEvents (mkWorld ["store"] "readonly" [])
        [.newRoot, .newRoot, .callWaitUntil 1]) 2
      = waitUntilFn (runEvents (mkWorld ["store"] "readonly" [])
        [.newRoot, .newRoot, .callWaitUntil 1]) 1 :=
  ⟨(C2_generation_counter_governs_commit.2.2.1 c2AfterFirstFulfills 1
      (.fulfilled (.tag 0)) (by decide)).1,
   C2_generation_counter_governs_commit.2.1
      (runEvents (mkWorld ["store"] "readonly" []) [.newRoot]) 1 1
      (by decide) (by decide),
   C2_generation_counter_governs_commit.2.2.2.1
      (runEvents (mkWorld ["store"] "readonly" []) [.newRoot, .newRoot, .callWaitUntil 1])
      2 1 1 (by decide) (by decide)⟩

/-- The sequence of values the `state` getter reports along a run: the
report in the initial world, then after each event. -/
def traceReports (w : World) : List Ev → List TxReported
  | [] => [stateGetter w]
  | e :: es => stateGetter w :: traceReports (applyEv w e) es

/-- Invariant of a transaction on which `waitUntil` was never called:
`_state` is still `'maybeActive'` (or already `'finished'`), and no
generation-tagged commit handler exists anywhere — so nothing can ever set
`_state` to `'waiting'` or `'committing'`. -/
def NoWaitQuiet (w : World) : Prop :=
  (w.tx._state = .maybeActive ∨ w.tx._state = .finished) ∧
  (∀ x ∈ w.reactions, ∀ g, x.2 ≠ Reaction.onCommit g) ∧
  (∀ x ∈ w.micro, ∀ g, x.1 ≠ Reaction.onCommit g)

theorem settle_no_onCommit (w : World) (id : Nat) (o : Outcome)
    (hr : ∀ x ∈ w.reactions, ∀ g, x.2 ≠ Reaction.onCommit g)
    (hm : ∀ x ∈ w.micro, ∀ g, x.1 ≠ Reaction.onCommit g) :
    (∀ x ∈ (w.settle id o).reactions, ∀ g, x.2 ≠ Reaction.onCommit g) ∧
    (∀ x ∈ (w.settle id o).micro, ∀ g, x.1 ≠ Reaction.onCommit g) := by
  unfold World.settle
  split
  · exact ⟨hr, hm⟩
  · constructor
    · intro x hx g
      exact hr x (List.mem_of_mem_filter hx) g
    · intro x hx g
      rcases List.mem_append.mp hx with h | h
      · exact hm x h g
      · rcases List.mem_map.mp h with ⟨r, hrmem, rfl⟩
        exact hr r (List.mem_of_mem_filter hrmem) g

theorem register_no_onCommit (w : World) (s : Nat) (r : Reaction)
    (hrr : ∀ g, r ≠ Reaction.onCommit g)
    (hr : ∀ x ∈ w.reactions, ∀ g, x.2 ≠ Reaction.onCommit g)
    (hm : ∀ x ∈ w.micro, ∀ g, x.1 ≠ Reaction.onCommit g) :
    (∀ x ∈ (w.register s r).reactions, ∀ g, x.2 ≠ Reaction.onCommit g) ∧
    (∀ x ∈ (w.register s r).micro, ∀ g, x.1 ≠ Reaction.onCommit g) := by
  unfold World.register
  split
  · refine ⟨hr, ?_⟩
    intro x hx g
    rcases List.mem_append.mp hx with h | h
    · exact hm x h g
    · simp only [List.mem_singleton] at h
      subst h
      exact hrr g
  · refine ⟨?_, hm⟩
    intro x hx g
    rcases List.mem_append.mp hx with h | h
    · exact hr x h g
    · simp only [List.mem_singleton] at h
      subst h
      exact hrr g

theorem doAbort_noWaitQuiet (w : World) (hq : NoWaitQuiet w) :
    NoWaitQuiet (w.doAbort) := by
  unfold World.doAbort
  split
  · exact hq
  · exact hq

theorem runReaction_noWaitQuiet (w : World) (r : Reaction) (o : Outcome)
    (hq : NoWaitQuiet w) (hrr : ∀ g, r ≠ Reaction.onCommit g) :
    NoWaitQuiet (w.runReaction r o) := by
  obtain ⟨hs, hr, hm⟩ := hq
  cases r with
  | chain inner tgt =>
    cases o with
    | fulfilled v =>
      show NoWaitQuiet (if inner = tgt then
        w.settle tgt (.rejected (.err "TypeError" "Chaining cycle detected for promise"))
        else w.register inner (.follow tgt))
      split
      · have h := settle_no_onCommit w tgt
          (.rejected (.err "TypeError" "Chaining cycle detected for promise")) hr hm
        exact ⟨by rw [World.settle_tx]; exact hs, h.1, h.2⟩
      · have h := register_no_onCommit w inner (.follow tgt) (fun g h => by cases h) hr hm
        exact ⟨by rw [World.register_tx]; exact hs, h.1, h.2⟩
    | rejected v =>
      have h := settle_no_onCommit w tgt (.rejected v) hr hm
      exact ⟨by rw [show (w.runReaction (.chain inner tgt) (.rejected v)).tx
        = (w.settle tgt (.rejected v)).tx from rfl, World.settle_tx]; exact hs,
        h.1, h.2⟩
  | follow tgt =>
    cases o with
    | fulfilled v =>
      have h := settle_no_onCommit w tgt (.fulfilled v) hr hm
      exact ⟨by rw [show (w.runReaction (.follow tgt) (.fulfilled v)).tx
        = (w.settle tgt (.fulfilled v)).tx from rfl, World.settle_tx]; exact hs,
        h.1, h.2⟩
    | rejected v =>
      have h := settle_no_onCommit w tgt (.rejected v) hr hm
      exact ⟨by rw [show (w.runReaction (.follow tgt) (.rejected v)).tx
        = (w.settle tgt (.rejected v)).tx from rfl, World.settle_tx]; exact hs,
        h.1, h.2⟩
  | onCommit g => exact absurd rfl (hrr g)
  | onRejectAbort g =>
    cases o with
    | fulfilled v => exact ⟨hs, hr, hm⟩
    | rejected v =>
      show NoWaitQuiet (if g = w.tx._waitingIndex then w.doAbort else w)
      split
      · exact doAbort_noWaitQuiet w ⟨hs, hr, hm⟩
      · exact ⟨hs, hr, hm⟩

theorem applyEv_noWaitQuiet (w : World) (e : Ev)
    (hq : NoWaitQuiet w) (he : ∀ p, e ≠ Ev.callWaitUntil p) :
    NoWaitQuiet (applyEv w e) := by
  obtain ⟨hs, hr, hm⟩ := hq
  cases e with
  | newRoot => exact ⟨hs, hr, hm⟩
  | settleRoot p o =>
    simp only [applyEv]
    split
    · have h := settle_no_onCommit w p o hr hm
      exact ⟨by rw [World.settle_tx]; exact hs, h.1, h.2⟩
    · exact ⟨hs, hr, hm⟩
  | callWaitUntil p => exact absurd rfl (he p)
  | enqueueJob j =>
    simp only [applyEv]
    split
    · exact ⟨by simpa using hs, hr, hm⟩
    · exact ⟨hs, hr, hm⟩
  | probeSuccess =>
    simp only [applyEv]
    split
    · split
      · exact ⟨by simpa using hs, hr, hm⟩
      · exact ⟨by simpa using hs, hr, hm⟩
    · exact ⟨hs, hr, hm⟩
  | taskEnd => exact ⟨hs, hr, hm⟩
  | hostComplete =>
    simp only [applyEv]
    split
    · rename_i hcond
      set w1 : World := { w with tx := { w.tx with _state := .finished } } with hw1
      have h := settle_no_onCommit w1 w1.txPromise (.fulfilled .undef) hr hm
      exact ⟨by rw [World.settle_tx]; right; rfl, h.1, h.2⟩
    · exact ⟨hs, hr, hm⟩
  | hostAbortEvent =>
    simp only [applyEv]
    split
    · rename_i hcond
      set w1 : World :=
        { w with tx := { w.tx with _state := .finished, error := some .nullv } } with hw1
      have h := settle_no_onCommit w1 w1.txPromise (.rejected .nullv) hr hm
      exact ⟨by rw [World.settle_tx]; right; rfl, h.1, h.2⟩
    · exact ⟨hs, hr, hm⟩
  | micro =>
    simp only [applyEv]
    unfold World.stepMicro
    split
    · exact ⟨hs, hr, hm⟩
    · rename_i r o rest hmic
      have hrest : ∀ x ∈ rest, ∀ g, x.1 ≠ Reaction.onCommit g := by
        intro x hx
        exact hm x (hmic ▸ List.mem_cons_of_mem _ hx)
      have hrr : ∀ g, r ≠ Reaction.onCommit g := by
        intro g
        exact hm (r, o) (hmic ▸ List.mem_cons_self _ _) g
      exact runReaction_noWaitQuiet _ r o ⟨hs, hr, hrest⟩ hrr

theorem runEvents_noWaitQuiet (w : World) (evs : List Ev)
    (hq : NoWaitQuiet w) (he : ∀ e ∈ evs, ∀ p, e ≠ Ev.callWaitUntil p) :
    NoWaitQuiet (runEvents w evs) := by
  induction evs generalizing w with
  | nil => exact hq
  | cons e es ih =>
    exact ih (applyEv w e)
      (applyEv_noWaitQuiet w e hq (he e (List.mem_cons_self _ _)))
      (fun x hx => he x (List.mem_cons_of_mem _ hx))

theorem stateGetter_maybeActive (w : World) (h : w.tx._state = .maybeActive) :
    stateGetter w = .active ∨ stateGetter w = .inactive := by
  simp only [stateGetter, h]
  split
  · right; rfl
  · split
    · left; rfl
    · right; rfl

theorem stateGetter_finished (w : World) (h : w.tx._state = .finished) :
    stateGetter w = .finished := by
  simp only [stateGetter, h]

/-- C3 (divergence).  A transaction that never calls `waitUntil` never has
its `state` accessor report `'committing'` (nor `'waiting'`): its `_state`
stays `'maybeActive'` until the host's completion event sets `'finished'`,
so the getter can only ever report `'active'`, `'inactive'`, or
`'finished'` — the code's own comments record this ("TODO: This doesn't
capture 'committing'", "Non-waited transactions never report state as
'committing'").  Concretely, the run create → task end → host commit
reports exactly `active`, `inactive`, `finished`.  The claim's sequence
active → inactive → committing → finished therefore does not hold on the
code: `committing` is never observed. -/
theorem C3_nonwaited_never_reports_committing :
    (∀ (scope : List String) (mode : String) (dbStores : List String) (evs : List Ev),
      (∀ e ∈ evs, ∀ p, e ≠ Ev.callWaitUntil p) →
      stateGetter (runEvents (mkWorld scope mode dbStores) evs) ≠ .committing ∧
      stateGetter (runEvents (mkWorld scope mode dbStores) evs) ≠ .waiting) ∧
    traceReports (mkWorld ["store"] "readonly" []) [.taskEnd, .hostComplete]
      = [.active, .inactive, .finished] ∧
    TxReported.committing ∉
      traceReports (mkWorld ["store"] "readonly" []) [.taskEnd, .hostComplete] := by
  refine ⟨?_, by decide, by decide⟩
  intro scope mode dbStores evs he
  have hq0 : NoWaitQuiet (mkWorld scope mode dbStores) := by
    refine ⟨Or.inl rfl, ?_, ?_⟩ <;> simp [mkWorld]
  have hq := runEvents_noWaitQuiet _ evs hq0 he
  rcases hq.1 with h | h
  · rcases stateGetter_maybeActive _ h with h2 | h2 <;> rw [h2] <;> exact ⟨by simp, by simp⟩
  · rw [stateGetter_finished _ h]
    exact ⟨by simp, by simp⟩

/-- Witness for C3 at a concrete non-waited run. -/
theorem C3_nonwaited_witness :
    stateGetter (runEvents (mkWorld ["store"] "readonly" []) [.taskEnd, .hostComplete])
      ≠ .committing :=
  (C3_nonwaited_never_reports_committing.1 ["store"] "readonly" []
    [.taskEnd, .hostComplete]
    (by intro e he p
        rcases List.mem_cons.mp he with h | h
        · subst h; simp
        · rcases List.mem_singleton.mp h with rfl; simp)).1

theorem World.settle_txPromise (w : World) (id : Nat) (o : Outcome) :
    (w.settle id o).txPromise = w.txPromise := by
  unfold World.settle
  split <;> rfl

theorem World.register_txPromise (w : World) (src : Nat) (r : Reaction) :
    (w.register src r).txPromise = w.txPromise := by
  unfold World.register
  split <;> rfl

theorem World.runReaction_txPromise (w : World) (r : Reaction) (o : Outcome) :
    (w.runReaction r o).txPromise = w.txPromise := by
  unfold World.runReaction
  rcases r with _ | _ | _ | _ <;> rcases o with _ | _ <;>
    simp only [World.settle_txPromise, World.register_txPromise]
  · split <;> simp only [World.settle_txPromise, World.register_txPromise]
  · split <;> rfl
  · unfold World.doAbort
    split
    · split <;> rfl
    · rfl

theorem waitUntilFn_txPromise (w : World) (p : Nat) :
    (waitUntilFn w p).1.txPromise = w.txPromise := by
  unfold waitUntilFn
  split
  · simp [World.alloc]
  · by_cases hw : w.tx._state = .waiting
    · cases hq : w.tx._waitingPromise with
      | none => simp [hw, hq]
      | some q => simp [hw, hq, World.register_txPromise, World.alloc]
    · by_cases he : (effectiveScope { w.tx with _state := .waiting, _queue := some [] }).isEmpty
      · simp [hw, he]
      · simp [hw, he, World.register_txPromise]

/-- No event ever replaces the transaction's completion promise `_promise`:
it is allocated once at transaction creation and the accessor always hands
back that same instance (memoization). -/
theorem applyEv_txPromise (w : World) (e : Ev) :
    (applyEv w e).txPromise = w.txPromise := by
  cases e with
  | newRoot => simp [applyEv, World.alloc]
  | settleRoot p o =>
    simp only [applyEv]
    split
    · rw [World.settle_txPromise]
    · rfl
  | callWaitUntil p => exact waitUntilFn_txPromise w p
  | enqueueJob j =>
    simp only [applyEv]
    split <;> rfl
  | probeSuccess =>
    simp only [applyEv]
    split
    · split <;> rfl
    · rfl
  | taskEnd => rfl
  | hostComplete =>
    simp only [applyEv]
    split
    · rw [World.settle_txPromise]
    · rfl
  | hostAbortEvent =>
    simp only [applyEv]
    split
    · rw [World.settle_txPromise]
    · rfl
  | micro =>
    simp only [applyEv]
    unfold World.stepMicro
    split
    · rfl
    · rw [World.runReaction_txPromise]

/-- An accepted `waitUntil` returns exactly the promise stored as the new
`_waitingPromise` — `Promise.resolve(this._waitingPromise)` is that very
promise, since the argument is already a promise — and leaves the
completion promise untouched. -/
theorem waitUntilFn_returns_waitingPromise (w : World) (p : Nat) (pid : Nat)
    (hg : ¬ (stateGetter w = .committing ∨ stateGetter w = .finished))
    (hr : (waitUntilFn w p).2 = .returned pid) :
    (waitUntilFn w p).1.tx._waitingPromise = some pid ∧
    promiseFn (waitUntilFn w p).1 = promiseFn w := by
  unfold promiseFn
  rw [waitUntilFn_txPromise]
  refine ⟨?_, rfl⟩
  unfold waitUntilFn at hr ⊢
  rw [if_neg hg] at hr ⊢
  by_cases hw : w.tx._state = .waiting
  · cases hq : w.tx._waitingPromise with
    | none => rw [hw] at hr; simp [hq] at hr
    | some q =>
      simp only [hw, hq, World.alloc, if_pos] at hr ⊢
      simp only [World.register_tx]
      simp at hr
      simp [hr]
  · by_cases he : (effectiveScope { w.tx with _state := .waiting, _queue := some [] }).isEmpty
    · simp [hw, he] at hr
    · simp only [hw, he, if_neg, if_pos] at hr ⊢
      simp [World.register_tx] at hr ⊢
      simp [hr]

/-- Scenario world for C4: a transaction over one store with one
environment promise (id 1); the completion promise has id 0. -/
def c4Base : World := runEvents (mkWorld ["store"] "readonly" []) [.newRoot]

/-- The C4 scenario world after `waitUntil(1)`. -/
def c4After : World := (waitUntilFn c4Base 1).1

/-- The C4 scenario world after the awaitable fulfills and microtasks run. -/
def c4Settled : World :=
  runEvents c4After [.settleRoot 1 (.fulfilled .undef), .micro, .micro]

/-- C4 counterexample.  At a concrete accepted call, `waitUntil(p)` returns
promise 1 — the composite waiting promise — while the transaction's
completion accessor returns promise 0, a different future; and once the
awaitable fulfills, the returned future is already fulfilled while the
completion future is still pending (the host has not yet committed).  So the
future returned by an accepted `waitUntil` is not the transaction's overall
completion future. -/
theorem C4_counterexample_returned_future_not_completion :
    (waitUntilFn c4Base 1).2 = .returned 1 ∧
    promiseFn (waitUntilFn c4Base 1).1 = 0 ∧
    (1 : Nat) ≠ 0 ∧
    c4Settled.pstatus 1 = .settled (.fulfilled .undef) ∧
    c4Settled.pstatus (promiseFn c4Settled) = .pending := by
  refine ⟨by decide, by decide, by decide, by decide, by decide⟩

/-- C4 (amended).  Whenever `waitUntil(p)` is accepted, the future it
returns is the transaction's composite waiting promise itself
(`Promise.resolve(this._waitingPromise)` hands back that very promise, the
argument being a native promise), which settles with the extension chain's
outcome — not the completion future.  The completion accessor is memoized:
it always returns the single completion promise allocated at creation,
which no event ever replaces, and which settles only with the host's
commit-or-abort signal. -/
theorem C4_waitUntil_returns_composite_waiting_promise :
    (∀ (w : World) (p pid : Nat),
      ¬ (stateGetter w = .committing ∨ stateGetter w = .finished) →
      (waitUntilFn w p).2 = .returned pid →
      (waitUntilFn w p).1.tx._waitingPromise = some pid ∧
      promiseFn (waitUntilFn w p).1 = promiseFn w) ∧
    (∀ (w : World) (e : Ev), promiseFn (applyEv w e) = promiseFn w) ∧
    ((waitUntilFn c4Base 1).2 = .returned 1 ∧
      c4After.tx._waitingPromise = some 1 ∧
      promiseFn c4After = 0) :=
  ⟨waitUntilFn_returns_waitingPromise,
   fun w e => applyEv_txPromise w e,
   by decide, by decide, by decide⟩

/-- Witness for C4 at the concrete accepted call. -/
theorem C4_waitUntil_returns_composite_witness :
    (waitUntilFn c4Base 1).1.tx._waitingPromise = some 1 :=
  (C4_waitUntil_returns_composite_waiting_promise.1 c4Base 1 1
    (by decide) (by decide)).1

theorem waitUntilFn_hostAborted (w : World) (p : Nat) :
    (waitUntilFn w p).1.hostAborted = w.hostAborted := by
  unfold waitUntilFn
  split
  · simp [World.alloc]
  · by_cases hw : w.tx._state = .waiting
    · cases hq : w.tx._waitingPromise with
      | none => simp [hw, hq]
      | some q => simp [hw, hq, World.register_hostAborted, World.alloc]
    · by_cases he : (effectiveScope { w.tx with _state := .waiting, _queue := some [] }).isEmpty
      · simp [hw, he]
      · simp [hw, he, World.register_hostAborted]

theorem waitUntilFn_executedJobs (w : World) (p : Nat) :
    (waitUntilFn w p).1.executedJobs = w.executedJobs := by
  unfold waitUntilFn
  split
  · simp [World.alloc]
  · by_cases hw : w.tx._state = .waiting
    · cases hq : w.tx._waitingPromise with
      | none => simp [hw, hq]
      | some q => simp [hw, hq, World.register_executedJobs, World.alloc]
    · by_cases he : (effectiveScope { w.tx with _state := .waiting, _queue := some [] }).isEmpty
      · simp [hw, he]
      · simp [hw, he, World.register_executedJobs]

/-- Once the host transaction is aborting, no event can ever execute another
deferred job: the spin probe's `onsuccess` never fires again (an aborted
host transaction fails all its requests), so the drain at lines 136-137 is
never reached, and the abort flag never resets. -/
theorem applyEv_frozen_after_abort (w : World) (e : Ev) (h : w.hostAborted = true) :
    (applyEv w e).hostAborted = true ∧ (applyEv w e).executedJobs = w.executedJobs := by
  cases e with
  | newRoot => exact ⟨h, rfl⟩
  | settleRoot p o =>
    simp only [applyEv]
    split
    · rw [World.settle_hostAborted, World.settle_executedJobs]; exact ⟨h, rfl⟩
    · exact ⟨h, rfl⟩
  | callWaitUntil p =>
    rw [applyEv, waitUntilFn_hostAborted, waitUntilFn_executedJobs]
    exact ⟨h, rfl⟩
  | enqueueJob j =>
    simp only [applyEv]
    split <;> exact ⟨h, rfl⟩
  | probeSuccess =>
    simp only [applyEv]
    rw [if_neg (by simp [h])]
    exact ⟨h, rfl⟩
  | taskEnd => exact ⟨h, rfl⟩
  | hostComplete =>
    simp only [applyEv]
    rw [if_neg (by simp [h])]
    exact ⟨h, rfl⟩
  | hostAbortEvent =>
    simp only [applyEv]
    split
    · rw [World.settle_hostAborted, World.settle_executedJobs]; exact ⟨h, rfl⟩
    · exact ⟨h, rfl⟩
  | micro =>
    simp only [applyEv]
    unfold World.stepMicro
    split
    · exact ⟨h, rfl⟩
    · rw [World.runReaction_executedJobs]
      exact ⟨World.runReaction_hostAborted _ _ _ h, rfl⟩

theorem runEvents_frozen_after_abort (w : World) (evs : List Ev)
    (h : w.hostAborted = true) :
    (runEvents w evs).executedJobs = w.executedJobs ∧
    (runEvents w evs).hostAborted = true := by
  induction evs generalizing w with
  | nil => exact ⟨rfl, h⟩
  | cons e es ih =>
    obtain ⟨h1, h2⟩ := applyEv_frozen_after_abort w e h
    obtain ⟨h3, h4⟩ := ih (applyEv w e) h1
    exact ⟨h2 ▸ h3, h4⟩

/-- Scenario world for C5: `waitUntil(1)`, one deferred job (id 7) queued
while `'waiting'`, then the composite rejects with reason `tag 5` and both
handler microtasks run — the stale-free rejection handler calls `abort()`. -/
def c5AfterReject : World :=
  runEvents (mkWorld ["store"] "readonly" [])
    [.newRoot, .callWaitUntil 1, .enqueueJob 7,
     .settleRoot 1 (.rejected (.tag 5)), .micro, .micro]

/-- Continuation of the C5 scenario: the host delivers the abort event
(interleaved probe-success deliveries are dead, the host having aborted). -/
def c5Final : World :=
  runEvents c5AfterReject [.probeSuccess, .hostAbortEvent, .probeSuccess]

/-- C5 counterexample.  In the concrete run where the live composite rejects
with reason `tag 5` while `'waiting'`, the transaction does abort and reach
`'finished'` — but its error is `null` (the host's error for an explicit
`abort()` call, the rejection handler at lines 153-158 passing no reason),
and the completion future rejects with `null`, which is not an `AbortError`
carrying `tag 5`: the rejection's reason is discarded. -/
theorem C5_counterexample_reason_discarded :
    c5AfterReject.hostAborted = true ∧
    c5Final.tx._state = .finished ∧
    c5Final.tx.error = some .nullv ∧
    c5Final.pstatus 0 = .settled (.rejected .nullv) ∧
    (∀ m, JSVal.nullv ≠ .err "AbortError" m) ∧
    c5Final.executedJobs = [] := by
  refine ⟨by decide, by decide, by decide, by decide, ?_, by decide⟩
  intro m h
  cases h

/-- C5 (amended).  If the current-generation composite awaitable rejects
while the transaction is not yet finished, the rejection handler calls
`abort()` on the host transaction (discarding the rejection's reason); once
the host is aborting, no deferred job still in the queue is ever executed,
by any sequence of further events; and in the concrete run the transaction
reaches `'finished'` with the host's abort error (`null`), the completion
future rejecting with it, the queued job 7 never having run. -/
theorem C5_live_reject_aborts_and_discards_queue :
    (∀ (w : World) (g : Nat) (v : JSVal),
      g = w.tx._waitingIndex → w.tx._state ≠ .finished →
      (w.runReaction (.onRejectAbort g) (.rejected v)).hostAborted = true) ∧
    (∀ (w : World) (evs : List Ev), w.hostAborted = true →
      (runEvents w evs).executedJobs = w.executedJobs) ∧
    (∀ evs : List Ev, (runEvents c5Final evs).executedJobs = []) ∧
    (c5Final.tx._state = .finished ∧
      c5Final.tx.error = some .nullv ∧
      c5Final.pstatus 0 = .settled (.rejected .nullv) ∧
      c5Final.executedJobs = [] ∧
      c5Final.tx._queue = some [7]) := by
  refine ⟨?_, ?_, ?_, by decide, by decide, by decide, by decide, by decide⟩
  · intro w g v hg hs
    simp only [World.runReaction, hg, if_pos]
    unfold World.doAbort
    by_cases ha : w.hostAborted = true
    · rw [if_pos (Or.inr ha)]; exact ha
    · rw [if_neg (by simp [hs, ha])]
  · intro w evs h
    exact (runEvents_frozen_after_abort w evs h).1
  · intro evs
    have h := runEvents_frozen_after_abort c5Final evs (by decide)
    rw [h.1]
    decide

/-- Witness for C5 at concrete inputs: the rejection handler on the live
generation flags the host abort, and the frozen-queue property at the
concrete aborted world. -/
theorem C5_live_reject_witness :
    ((runEvents (mkWorld ["store"] "readonly" [])
        [.newRoot, .callWaitUntil 1]).runReaction
      (.onRejectAbort 1) (.rejected (.tag 5))).hostAborted = true ∧
    (runEvents c5AfterReject [.probeSuccess]).executedJobs
      = c5AfterReject.executedJobs :=
  ⟨C5_live_reject_aborts_and_discards_queue.1
      (runEvents (mkWorld ["store"] "readonly" []) [.newRoot, .callWaitUntil 1])
      1 (.tag 5) (by decide) (by decide),
   C5_live_reject_aborts_and_discards_queue.2.1 c5AfterReject
      [.probeSuccess] (by decide)⟩

/-- C7.  If the effective scope is empty when `waitUntil` first moves the
transaction toward `'waiting'` (state still `'maybeActive'`), `getStore`
at line 134 throws `Error('No object stores')` out of the call before any
probe is issued: the failure is synchronous, explicit and immediate — no
keep-alive spinning starts (`probePending` unchanged), no generation is
consumed, and no promise or handler is created. -/
theorem C7_empty_scope_fails_fast (w : World) (p : Nat)
    (hmA : w.tx._state = .maybeActive) (hsc : effectiveScope w.tx = []) :
    (waitUntilFn w p).2 = .threw (.err "Error" "No object stores") ∧
    (waitUntilFn w p).1.probePending = w.probePending ∧
    (waitUntilFn w p).1.tx._waitingIndex = w.tx._waitingIndex ∧
    (waitUntilFn w p).1.promises = w.promises ∧
    (waitUntilFn w p).1.reactions = w.reactions ∧
    (waitUntilFn w p).1.micro = w.micro := by
  have hg : ¬ (stateGetter w = .committing ∨ stateGetter w = .finished) := by
    simp [stateGetter, hmA, hsc]
  have hw : ¬ w.tx._state = .waiting := by
    rw [hmA]; intro h; cases h
  unfold waitUntilFn
  rw [if_neg hg]
  simp only [if_neg hw]
  rw [show effectiveScope { w.tx with _state := TxInternal.waiting, _queue := some [] }
    = effectiveScope w.tx from rfl, hsc]
  simp

/-- Witness for C7: a brand-new transaction with an empty scope. -/
theorem C7_empty_scope_witness :
    (waitUntilFn (mkWorld [] "readonly" []) 0).2
      = .threw (.err "Error" "No object stores") ∧
    (waitUntilFn (mkWorld [] "readonly" []) 0).1.probePending = false :=
  ⟨(C7_empty_scope_fails_fast (mkWorld [] "readonly" []) 0 (by decide) (by decide)).1,
   (C7_empty_scope_fails_fast (mkWorld [] "readonly" []) 0 (by decide) (by decide)).2.1⟩

/-!
Store-level model: the hooked one-shot request methods (lines 300-334), the
`IDBRequestProxy` (lines 190-278), and the spin drain (lines 135-142), over
a concrete key-value store.  The host applies dispatched requests in
dispatch order (IndexedDB guarantees FIFO processing per transaction), so a
dispatched request is modelled with its outcome already determined; event
delivery is observed through the request's recorded outcome.
-/

/-- A subscription made through `addEventListener` / `removeEventListener`
(listeners are identified by opaque ids). -/
inductive SubAction where
  | add : String → Nat → SubAction
  | remove : String → Nat → SubAction
deriving Repr, DecidableEq

/-- A host request handle: its result, error, `readyState` (`"pending"` or
`"done"`), registered event listeners, and the `onsuccess`/`onerror`
properties. -/
structure RealRequest where
  result : JSVal
  error : Option JSVal
  readyState : String
  listeners : List (String × Nat)
  onsuccess : Option Nat
  onerror : Option Nat
deriving Repr, DecidableEq

/-- The placeholder request handle created when a dispatch happens in an
unnamed slot; only used as a `getD` default. -/
def blankRequest : RealRequest :=
  { result := .undef, error := none, readyState := "pending",
    listeners := [], onsuccess := none, onerror := none }

/-- Embedding of `IDBRequestProxy` (lines 192-200): an unbound stand-in for
a request, recording handler subscriptions until `_provide` binds it to a
real request. -/
structure IDBRequestProxy where
  _request : Option Nat
  _onsuccess : Option Nat
  _onerror : Option Nat
  _handlers : List SubAction
  _resolvers : List Nat
deriving Repr, DecidableEq

/-- `new IDBRequestProxy()` as the hooked methods construct it (line 319):
unbound, with no recorded handlers. -/
def newProxy : IDBRequestProxy :=
  { _request := none, _onsuccess := none, _onerror := none,
    _handlers := [], _resolvers := [] }

/-- The `InvalidStateError` thrown by the proxy's `result`/`error` getters
before binding (lines 205, 209). -/
def requestNotReadyErr : JSVal :=
  .err "InvalidStateError" "The request is not ready."

/-- The proxy's `result` getter (lines 203-206): the bound request's result,
or a thrown `InvalidStateError` before binding. -/
def proxyResult (p : IDBRequestProxy) (reqs : List RealRequest) :
    Except JSVal JSVal :=
  match p._request with
  | some rid => .ok (reqs.getD rid blankRequest).result
  | none => .error requestNotReadyErr

/-- The proxy's `error` getter (lines 207-210). -/
def proxyError (p : IDBRequestProxy) (reqs : List RealRequest) :
    Except JSVal (Option JSVal) :=
  match p._request with
  | some rid => .ok (reqs.getD rid blankRequest).error
  | none => .error requestNotReadyErr

/-- The proxy's `readyState` getter (lines 217-220): the bound request's
`readyState`, or `"pending"` before binding — it never throws. -/
def proxyReadyState (p : IDBRequestProxy) (reqs : List RealRequest) :
    Except JSVal String :=
  match p._request with
  | some rid => .ok (reqs.getD rid blankRequest).readyState
  | none => .ok "pending"

/-- Apply one recorded subscription to a real request, as the replayed
closures do (lines 235-237, 243-246): `addEventListener` appends a
registration, `removeEventListener` removes the first matching one. -/
def applySub (r : RealRequest) (s : SubAction) : RealRequest :=
  match s with
  | .add ty l => { r with listeners := r.listeners ++ [(ty, l)] }
  | .remove ty l => { r with listeners := r.listeners.erase (ty, l) }

/-- The proxy's `addEventListener` (lines 231-239): forwarded directly when
bound, recorded for replay when not. -/
def proxyAddEventListener (p : IDBRequestProxy) (reqs : List RealRequest)
    (ty : String) (l : Nat) : IDBRequestProxy × List RealRequest :=
  match p._request with
  | some rid =>
    (p, reqs.set rid (applySub (reqs.getD rid blankRequest) (.add ty l)))
  | none => ({ p with _handlers := p._handlers ++ [.add ty l] }, reqs)

/-- The proxy's `removeEventListener` (lines 240-248). -/
def proxyRemoveEventListener (p : IDBRequestProxy) (reqs : List RealRequest)
    (ty : String) (l : Nat) : IDBRequestProxy × List RealRequest :=
  match p._request with
  | some rid =>
    (p, reqs.set rid (applySub (reqs.getD rid blankRequest) (.remove ty l)))
  | none => ({ p with _handlers := p._handlers ++ [.remove ty l] }, reqs)

/-- Embedding of `_provide(request)` (lines 268-277): bind the proxy to the
real request `rid`, copy the `onsuccess`/`onerror` properties over, then
replay every queued subscription in FIFO order (the `while shift` loops
empty `_handlers` and `_resolvers`). -/
def provide (p : IDBRequestProxy) (r : RealRequest) (rid : Nat) :
    IDBRequestProxy × RealRequest :=
  let r1 := { r with onsuccess := p._onsuccess, onerror := p._onerror }
  let r2 := p._handlers.foldl applySub r1
  ({ p with _request := some rid, _handlers := [], _resolvers := [] }, r2)

/-- The one-shot operations the polyfill hooks on `IDBObjectStore`
(line 303): `put`, `add`, `delete`, `get`, `clear`, `count` (keys and
values as naturals). -/
inductive StoreOp where
  | put : Nat → Nat → StoreOp
  | add : Nat → Nat → StoreOp
  | del : Nat → StoreOp
  | get : Nat → StoreOp
  | clear : StoreOp
  | count : StoreOp
deriving Repr, DecidableEq

/-- The backing key-value store and one operation's effect on it, with the
operation's outcome as IndexedDB defines it: `put value key` upserts and
succeeds with the key; `add` fails with `ConstraintError` on an existing
key; `delete`/`clear` succeed with `undefined`; `get` succeeds with the
stored value or `undefined`; `count` succeeds with the number of records. -/
def applyOp (store : List (Nat × Nat)) (op : StoreOp) :
    List (Nat × Nat) × Except JSVal JSVal :=
  match op with
  | .put v k =>
    ((store.filter (fun e => e.1 ≠ k)) ++ [(k, v)], .ok (.tag k))
  | .add v k =>
    if (store.filter (fun e => e.1 = k)).isEmpty then
      (store ++ [(k, v)], .ok (.tag k))
    else
      (store, .error (.err "ConstraintError" "Key already exists in the object store."))
  | .del k => (store.filter (fun e => e.1 ≠ k), .ok .undef)
  | .get k =>
    (store, .ok (match (store.filter (fun e => e.1 = k)).head? with
      | some e => .tag e.2
      | none => .undef))
  | .clear => ([], .ok .undef)
  | .count => (store, .ok (.tag store.length))

/-- A host request handle whose dispatch the host has processed: result or
error recorded, `readyState` `"done"`. -/
def doneRequest (res : Except JSVal JSVal) : RealRequest :=
  match res with
  | .ok v => { result := v, error := none, readyState := "done",
               listeners := [], onsuccess := none, onerror := none }
  | .error e => { result := .undef, error := some e, readyState := "done",
                  listeners := [], onsuccess := none, onerror := none }

/-- The observable settlement of a request's single-resolution adapter
(`promiseForRequest`, lines 289-298): the result on success, the error on
failure, nothing while the request is pending. -/
def reqOutcome (r : RealRequest) : Option (Except JSVal JSVal) :=
  if r.readyState = "done" then
    some (match r.error with
      | some e => .error e
      | none => .ok r.result)
  else none

/-- World of the store-level model: the reported transaction state consulted
by the hook (`tx.state !== 'waiting'`, line 316), the backing store, the
allocated request handles, the allocated proxies, and the transaction's
deferred queue of captured closures (operation plus the proxy awaiting its
request). -/
structure OpsWorld where
  txState : TxReported
  store : List (Nat × Nat)
  requests : List RealRequest
  proxies : List IDBRequestProxy
  queue : List (StoreOp × Nat)
deriving Repr, DecidableEq

/-- Dispatch an operation against the host store: the store is updated and
a new processed request handle records the outcome (the host processes each
transaction's requests in dispatch order). -/
def dispatchOp (m : OpsWorld) (op : StoreOp) : OpsWorld × Nat :=
  let sr := applyOp m.store op
  ({ m with store := sr.1, requests := m.requests ++ [doneRequest sr.2] },
   m.requests.length)

/-- Embedding of a hooked one-shot request method (lines 311-332).  When the
transaction's reported state is not `'waiting'`, the original method
dispatches directly and the real request is returned.  When it is
`'waiting'`, nothing is dispatched: a fresh `IDBRequestProxy` is created,
the closure capturing target, method and arguments is appended to the
transaction's queue, and the proxy is returned synchronously.  In both
cases `promiseForRequest` then subscribes the adapter's `success` and
`error` listeners on the returned object (line 329) — on a proxy these are
recorded for replay; listener ids `2·pid` and `2·pid + 1` stand for the two
adapter closures. -/
def hookedCall (m : OpsWorld) (op : StoreOp) : OpsWorld × (Nat ⊕ Nat) :=
  if m.txState ≠ .waiting then
    let mr := dispatchOp m op
    (mr.1, Sum.inl mr.2)
  else
    let pid := m.proxies.length
    let p0 := newProxy
    let pr1 := proxyAddEventListener p0 m.requests "success" (2 * pid)
    let pr2 := proxyAddEventListener pr1.1 pr1.2 "error" (2 * pid + 1)
    ({ m with proxies := m.proxies ++ [pr2.1],
              requests := pr2.2,
              queue := m.queue ++ [(op, pid)] },
     Sum.inr pid)

/-- Run one deferred closure (lines 320-325): dispatch the captured
operation with the original method, then `_provide` the resulting real
request to the proxy created at capture time. -/
def runJob (m : OpsWorld) (job : StoreOp × Nat) : OpsWorld :=
  let mr := dispatchOp m job.1
  let m1 := mr.1
  let rid := mr.2
  let p := m1.proxies.getD job.2 newProxy
  let pr := provide p (m1.requests.getD rid blankRequest) rid
  { m1 with proxies := m1.proxies.set job.2 pr.1,
            requests := m1.requests.set rid pr.2 }

/-- Drain a job list strictly FIFO, as the spin's
`while (queue.length) (queue.shift())()` does (lines 136-137). -/
def drainJobs (m : OpsWorld) : List (StoreOp × Nat) → OpsWorld
  | [] => m
  | job :: rest => drainJobs (runJob m job) rest

/-- The spin's drain of the transaction's whole queue. -/
def drainQueue (m : OpsWorld) : OpsWorld :=
  drainJobs { m with queue := [] } m.queue

/-- Issue a list of operations through the hooked method, in order. -/
def issueAll (m : OpsWorld) : List StoreOp → OpsWorld
  | [] => m
  | op :: ops => issueAll (hookedCall m op).1 ops

/-- Plain sequential semantics of a batch of operations: the final store and
the per-operation outcomes, in issue order. -/
def dispatchAll (store : List (Nat × Nat)) : List StoreOp → List (Nat × Nat) × List (Except JSVal JSVal)
  | [] => (store, [])
  | op :: ops =>
    let sr := applyOp store op
    let rest := dispatchAll sr.1 ops
    (rest.1, sr.2 :: rest.2)

/-- The proxy a hooked call creates while `'waiting'`: unbound, carrying the
two adapter subscriptions `promiseForRequest` has queued on it. -/
def queuedProxy (pid : Nat) : IDBRequestProxy :=
  { _request := none, _onsuccess := none, _onerror := none,
    _handlers := [.add "success" (2 * pid), .add "error" (2 * pid + 1)],
    _resolvers := [] }

/-- The proxy after `_provide` bound it to request `rid`. -/
def boundProxy (rid : Nat) : IDBRequestProxy :=
  { _request := some rid, _onsuccess := none, _onerror := none,
    _handlers := [], _resolvers := [] }

/-- The request a drained job leaves behind: processed with the job's
outcome, carrying the adapter subscriptions replayed from proxy `pid`. -/
def boundRequest (res : Except JSVal JSVal) (pid : Nat) : RealRequest :=
  { doneRequest res with
    listeners := [("success", 2 * pid), ("error", 2 * pid + 1)] }

/-- The jobs queued for a batch of operations, proxy ids from `base` up. -/
def indexJobs (base : Nat) : List StoreOp → List (StoreOp × Nat)
  | [] => []
  | op :: ops => (op, base) :: indexJobs (base + 1) ops

/-- The proxies created for a batch of operations, ids from `base` up. -/
def rangeProxies (base : Nat) : List StoreOp → List IDBRequestProxy
  | [] => []
  | _ :: ops => queuedProxy base :: rangeProxies (base + 1) ops

/-- The requests a drain leaves behind for a batch of operations. -/
def drainedRequests (store : List (Nat × Nat)) (pbase : Nat) :
    List StoreOp → List RealRequest
  | [] => []
  | op :: ops =>
    boundRequest (applyOp store op).2 pbase
      :: drainedRequests (applyOp store op).1 (pbase + 1) ops

/-- The settlement a caller observes through the future of the `i`-th
deferred call: the adapter of the request its proxy was bound to. -/
def proxyOutcome (m : OpsWorld) (pid : Nat) : Option (Except JSVal JSVal) :=
  match (m.proxies.getD pid newProxy)._request with
  | some rid => reqOutcome (m.requests.getD rid blankRequest)
  | none => none

theorem reqOutcome_doneRequest (res : Except JSVal JSVal) :
    reqOutcome (doneRequest res) = some res := by
  cases res <;> simp [reqOutcome, doneRequest]

theorem reqOutcome_boundRequest (res : Except JSVal JSVal) (pid : Nat) :
    reqOutcome (boundRequest res pid) = some res := by
  cases res <;> simp [reqOutcome, boundRequest, doneRequest]

/-- Issuing while the reported state is not `'waiting'` dispatches each
operation immediately, in order. -/
theorem issueAll_active (ops : List StoreOp) (m : OpsWorld)
    (h : m.txState ≠ .waiting) :
    issueAll m ops
      = { m with store := (dispatchAll m.store ops).1,
                 requests := m.requests
                   ++ ((dispatchAll m.store ops).2.map doneRequest) } := by
  induction ops generalizing m with
  | nil => simp [issueAll, dispatchAll]
  | cons op ops ih =>
    rw [issueAll, hookedCall, if_pos h]
    rw [ih _ (by exact h)]
    simp [dispatchOp, dispatchAll, List.append_assoc]

/-- Issuing while the reported state is `'waiting'` dispatches nothing: the
store and request list are untouched; a fresh queued proxy is appended per
call, and the captured closure is appended to the queue, in issue order. -/
theorem issueAll_waiting (ops : List StoreOp) (m : OpsWorld)
    (h : m.txState = .waiting) :
    issueAll m ops
      = { m with proxies := m.proxies ++ rangeProxies m.proxies.length ops,
                 queue := m.queue ++ indexJobs m.proxies.length ops } := by
  induction ops generalizing m with
  | nil => simp [issueAll, rangeProxies, indexJobs]
  | cons op ops ih =>
    rw [issueAll, hookedCall, if_neg (by simp [h])]
    simp only [proxyAddEventListener, newProxy]
    rw [ih _ (by exact h)]
    simp [rangeProxies, indexJobs, queuedProxy, List.append_assoc]

theorem getD_concat_length {α : Type} (l : List α) (x : α) (d : α) :
    (l ++ [x]).getD l.length d = x := by
  simp [List.getD_eq_getElem?_getD, List.getElem?_concat_length]

theorem set_concat_length {α : Type} (l : List α) (x y : α) :
    (l ++ [x]).set l.length y = l ++ [y] := by
  induction l with
  | nil => rfl
  | cons a l ih => simp [List.set, ih]

theorem getD_set_ne {α : Type} (l : List α) (i j : Nat) (y d : α) (h : j ≠ i) :
    (l.set i y).getD j d = l.getD j d := by
  simp [List.getD_eq_getElem?_getD, List.getElem?_set_ne (Ne.symm h)]

/-- One drained job: dispatch the captured operation, append the processed
request, and bind the capture-time proxy to it (its queued adapter
subscriptions replayed onto the request). -/
theorem runJob_spec (m : OpsWorld) (op : StoreOp) (pbase : Nat)
    (hp : m.proxies.getD pbase newProxy = queuedProxy pbase) :
    runJob m (op, pbase)
      = { m with store := (applyOp m.store op).1,
                 requests := m.requests
                   ++ [boundRequest (applyOp m.store op).2 pbase],
                 proxies := m.proxies.set pbase (boundProxy m.requests.length) } := by
  have hprov : provide (queuedProxy pbase) (doneRequest (applyOp m.store op).2)
      m.requests.length
      = (boundProxy m.requests.length, boundRequest (applyOp m.store op).2 pbase) := by
    cases h : (applyOp m.store op).2 <;>
      simp [provide, queuedProxy, doneRequest, boundProxy, boundRequest, applySub]
  unfold runJob dispatchOp
  simp only [hp, getD_concat_length, hprov, set_concat_length]

/-- Draining the queued jobs of a batch, strictly FIFO: the store ends as if
the operations had been dispatched directly in issue order; the processed
requests are appended in that same order; the `i`-th capture-time proxy ends
bound to the `i`-th new request; every other proxy is untouched; the queue
and reported state are untouched. -/
theorem drainJobs_spec (ops : List StoreOp) (m : OpsWorld) (pbase : Nat)
    (hp : ∀ i, i < ops.length →
      m.proxies.getD (pbase + i) newProxy = queuedProxy (pbase + i)) :
    (drainJobs m (indexJobs pbase ops)).store = (dispatchAll m.store ops).1 ∧
    (drainJobs m (indexJobs pbase ops)).requests
      = m.requests ++ drainedRequests m.store pbase ops ∧
    (∀ i, i < ops.length →
      (drainJobs m (indexJobs pbase ops)).proxies.getD (pbase + i) newProxy
        = boundProxy (m.requests.length + i)) ∧
    (∀ j, (∀ i, i < ops.length → j ≠ pbase + i) →
      (drainJobs m (indexJobs pbase ops)).proxies.getD j newProxy
        = m.proxies.getD j newProxy) ∧
    (drainJobs m (indexJobs pbase ops)).queue = m.queue ∧
    (drainJobs m (indexJobs pbase ops)).txState = m.txState := by
  induction ops generalizing m pbase with
  | nil =>
    refine ⟨rfl, by simp [drainedRequests, indexJobs, drainJobs, dispatchAll], ?_, ?_, rfl, rfl⟩
    · intro i hi; cases hi
    · intro j hj; rfl
  | cons op ops ih =>
    have hp0 : m.proxies.getD pbase newProxy = queuedProxy pbase := by
      have := hp 0 (Nat.succ_pos _)
      simpa using this
    rw [indexJobs, drainJobs, runJob_spec m op pbase hp0]
    set m1 : OpsWorld :=
      { m with store := (applyOp m.store op).1,
               requests := m.requests ++ [boundRequest (applyOp m.store op).2 pbase],
               proxies := m.proxies.set pbase (boundProxy m.requests.length) } with hm1
    have hp1 : ∀ i, i < ops.length →
        m1.proxies.getD (pbase + 1 + i) newProxy = queuedProxy (pbase + 1 + i) := by
      intro i hi
      have hne : pbase + 1 + i ≠ pbase := by omega
      rw [hm1]
      show (m.proxies.set pbase (boundProxy m.requests.length)).getD
        (pbase + 1 + i) newProxy = queuedProxy (pbase + 1 + i)
      rw [getD_set_ne _ _ _ _ _ hne]
      have := hp (1 + i) (by simp only [List.length_cons]; omega)
      rw [show pbase + (1 + i) = pbase + 1 + i by omega] at this
      exact this
    obtain ⟨ihs, ihr, ihb, ihf, ihq, iht⟩ := ih m1 (pbase + 1) hp1
    refine ⟨?_, ?_, ?_, ?_, ?_, ?_⟩
    · rw [ihs]
      simp [dispatchAll, hm1]
    · rw [ihr]
      simp [hm1, drainedRequests, List.append_assoc]
    · intro i hi
      cases i with
      | zero =>
        have := ihf pbase (by intro i hi2; omega)
        simp only [Nat.add_zero]
        rw [this, hm1]
        show (m.proxies.set pbase (boundProxy m.requests.length)).getD pbase newProxy
          = boundProxy (m.requests.length + 0)
        rcases Nat.lt_or_ge pbase m.proxies.length with hlt | hge
        · simp [List.getD_eq_getElem?_getD, List.getElem?_set_self
            (by simpa using hlt)]
        · rw [List.set_eq_of_length_le (by simpa using hge)]
          exfalso
          have := hp0
          rw [List.getD_eq_getElem?_getD, List.getElem?_eq_none (by simpa using hge)] at this
          simp [newProxy, queuedProxy] at this
      | succ i2 =>
        have hi2 : i2 < ops.length := by
          simp only [List.length_cons] at hi
          omega
        have := ihb i2 hi2
        rw [show pbase + (i2 + 1) = pbase + 1 + i2 by omega]
        rw [this]
        have : m1.requests.length = m.requests.length + 1 := by simp [hm1]
        rw [this]
        congr 1
        omega
    · intro j hj
      have hj1 : ∀ i, i < ops.length → j ≠ pbase + 1 + i := by
        intro i hi
        have := hj (i + 1) (by simp only [List.length_cons]; omega)
        omega
      rw [ihf j hj1, hm1]
      show (m.proxies.set pbase (boundProxy m.requests.length)).getD j newProxy
        = m.proxies.getD j newProxy
      exact getD_set_ne _ _ _ _ _ (by have := hj 0 (Nat.succ_pos _); omega)
    · rw [ihq]
    · rw [iht]

/-- A fresh transaction-scoped world whose reported state is `'active'`. -/
def activeStart (store : List (Nat × Nat)) : OpsWorld :=
  { txState := .active, store := store, requests := [], proxies := [], queue := [] }

/-- A fresh transaction-scoped world whose reported state is `'waiting'`. -/
def waitingStart (store : List (Nat × Nat)) : OpsWorld :=
  { txState := .waiting, store := store, requests := [], proxies := [], queue := [] }

/-- Issue a batch while `'active'`. -/
def activeWorld (store : List (Nat × Nat)) (ops : List StoreOp) : OpsWorld :=
  issueAll (activeStart store) ops

/-- Issue a batch while `'waiting'`, then let the spin's probe-success
callback drain the queue. -/
def deferredWorld (store : List (Nat × Nat)) (ops : List StoreOp) : OpsWorld :=
  drainQueue (issueAll (waitingStart store) ops)

theorem rangeProxies_getD (ops : List StoreOp) :
    ∀ (base i : Nat), i < ops.length →
      (rangeProxies base ops).getD i newProxy = queuedProxy (base + i) := by
  induction ops with
  | nil => intro base i hi; cases hi
  | cons op ops ih =>
    intro base i hi
    cases i with
    | zero => simp [rangeProxies]
    | succ i2 =>
      have hi2 : i2 < ops.length := by
        simp only [List.length_cons] at hi
        omega
      have := ih (base + 1) i2 hi2
      simpa [rangeProxies, Nat.add_assoc, Nat.add_comm 1 i2] using this

theorem drainedRequests_length (ops : List StoreOp) :
    ∀ (store : List (Nat × Nat)) (pbase : Nat),
      (drainedRequests store pbase ops).length = ops.length := by
  induction ops with
  | nil => intro store pbase; rfl
  | cons op ops ih => intro store pbase; simp [drainedRequests, ih]

theorem dispatchAll_snd_length (ops : List StoreOp) :
    ∀ store : List (Nat × Nat), ((dispatchAll store ops).2).length = ops.length := by
  induction ops with
  | nil => intro store; rfl
  | cons op ops ih => intro store; simp [dispatchAll, ih]

theorem drained_outcomes (ops : List StoreOp) :
    ∀ (store : List (Nat × Nat)) (pbase : Nat),
      (drainedRequests store pbase ops).map reqOutcome
        = ((dispatchAll store ops).2).map some := by
  induction ops with
  | nil => intro store pbase; rfl
  | cons op ops ih =>
    intro store pbase
    simp [drainedRequests, dispatchAll, reqOutcome_boundRequest, ih]

theorem getD_eq_getElem {α : Type} (l : List α) (i : Nat) (d : α)
    (h : i < l.length) : l.getD i d = l[i] := by
  simp [List.getD_eq_getElem?_getD, List.getElem?_eq_getElem h]

theorem map_eq_getD {α β : Type} (f : α → β) (l l' : List α)
    (h : l.map f = l'.map f) (i : Nat) (d : α)
    (hi : i < l.length) (hi' : i < l'.length) :
    f (l.getD i d) = f (l'.getD i d) := by
  rw [getD_eq_getElem _ _ _ hi, getD_eq_getElem _ _ _ hi']
  have h2 := congrArg (fun t => t[i]?) h
  simp only [List.getElem?_map] at h2
  rw [List.getElem?_eq_getElem hi, List.getElem?_eq_getElem hi'] at h2
  simpa using h2

/-- C6.  While the reported state is `'waiting'`, a hooked operation call
dispatches nothing: the store and request list are untouched, the captured
closure (operation plus fresh proxy) is appended to the transaction's single
queue, and the `IDBRequestProxy` is returned synchronously.  The queue is
drained strictly FIFO by the probe-success callback, and the deferred batch
is observably identical to issuing it while `'active'`: same final store,
the same sequence of per-operation outcomes in the same issue order, each
observed through the corresponding proxy's future. -/
theorem C6_deferred_ops_equal_active_ops :
    (∀ (m : OpsWorld) (op : StoreOp), m.txState = .waiting →
      hookedCall m op
        = ({ m with proxies := m.proxies ++ [queuedProxy m.proxies.length],
                    queue := m.queue ++ [(op, m.proxies.length)] },
           Sum.inr m.proxies.length)) ∧
    (∀ (store : List (Nat × Nat)) (ops : List StoreOp),
      (deferredWorld store ops).store = (activeWorld store ops).store ∧
      (deferredWorld store ops).requests.map reqOutcome
        = (activeWorld store ops).requests.map reqOutcome ∧
      (∀ i, i < ops.length →
        proxyOutcome (deferredWorld store ops) i
          = reqOutcome ((activeWorld store ops).requests.getD i blankRequest))) := by
  constructor
  · intro m op h
    rw [hookedCall, if_neg (by simp [h])]
    simp [proxyAddEventListener, newProxy, queuedProxy]
  · intro store ops
    have hAct : activeWorld store ops
        = { activeStart store with
            store := (dispatchAll store ops).1,
            requests := ((dispatchAll store ops).2).map doneRequest } := by
      have := issueAll_active ops (activeStart store) (by simp [activeStart])
      simpa [activeWorld, activeStart] using this
    have hD : deferredWorld store ops
        = drainJobs { waitingStart store with
            proxies := rangeProxies 0 ops,
            queue := ([] : List (StoreOp × Nat)) } (indexJobs 0 ops) := by
      rw [deferredWorld,
        issueAll_waiting ops (waitingStart store) (by simp [waitingStart]),
        drainQueue]
      simp [waitingStart]
    obtain ⟨hs, hr, hb, hf, hq, ht⟩ :=
      drainJobs_spec ops
        { waitingStart store with
          proxies := rangeProxies 0 ops,
          queue := ([] : List (StoreOp × Nat)) } 0
        (fun i hi => by simpa using rangeProxies_getD ops 0 i hi)
    have hDreq : (deferredWorld store ops).requests = drainedRequests store 0 ops := by
      rw [hD, hr]
      simp [waitingStart]
    have hAreq : (activeWorld store ops).requests
        = ((dispatchAll store ops).2).map doneRequest := by
      rw [hAct]
    have hDstore : (deferredWorld store ops).store = (dispatchAll store ops).1 := by
      rw [hD, hs]
      simp [waitingStart]
    have hAstore : (activeWorld store ops).store = (dispatchAll store ops).1 := by
      rw [hAct]
    have hbound : ∀ i, i < ops.length →
        (deferredWorld store ops).proxies.getD i newProxy = boundProxy i := by
      intro i hi
      have := hb i hi
      rw [hD]
      simpa [waitingStart] using this
    have hc2 : (deferredWorld store ops).requests.map reqOutcome
        = (activeWorld store ops).requests.map reqOutcome := by
      rw [hDreq, hAreq, drained_outcomes]
      simp [List.map_map, Function.comp_def, reqOutcome_doneRequest]
    refine ⟨by rw [hDstore, hAstore], hc2, ?_⟩
    intro i hi
    unfold proxyOutcome
    rw [hbound i hi]
    simp only [boundProxy]
    exact map_eq_getD reqOutcome _ _ hc2 i blankRequest
      (by rw [hDreq, drainedRequests_length]; exact hi)
      (by rw [hAreq, List.length_map, dispatchAll_snd_length]; exact hi)

/-- Witness for C6: a concrete waiting call returns a proxy synchronously,
and a concrete deferred batch observes the same outcome as the active one. -/
theorem C6_deferred_ops_witness :
    (hookedCall (waitingStart [(1, 10)]) (.get 1)).2 = Sum.inr 0 ∧
    proxyOutcome (deferredWorld [(1, 10)] [.get 1, .put 5 2]) 0
      = reqOutcome ((activeWorld [(1, 10)] [.get 1, .put 5 2]).requests.getD 0
          blankRequest) :=
  ⟨by rw [C6_deferred_ops_equal_active_ops.1 (waitingStart [(1, 10)]) (.get 1)
        (by decide)]
      rfl,
   (C6_deferred_ops_equal_active_ops.2 [(1, 10)] [.get 1, .put 5 2]).2.2 0
     (by decide)⟩

/-- The event-registration pair a subscription denotes. -/
def subPair : SubAction → String × Nat
  | .add ty l => (ty, l)
  | .remove ty l => (ty, l)

theorem foldl_applySub_adds (subs : List SubAction) :
    ∀ r : RealRequest, (∀ s ∈ subs, ∃ ty l, s = SubAction.add ty l) →
      (subs.foldl applySub r).listeners = r.listeners ++ subs.map subPair := by
  induction subs with
  | nil => intro r h; simp
  | cons s subs ih =>
    intro r h
    obtain ⟨ty, l, rfl⟩ := h s (List.mem_cons_self _ _)
    rw [List.foldl_cons, ih _ (fun x hx => h x (List.mem_cons_of_mem _ hx))]
    simp [applySub, subPair]

theorem deferredWorld_facts (store : List (Nat × Nat)) (ops : List StoreOp) :
    (deferredWorld store ops).queue = [] ∧
    (∀ i, i < ops.length →
      (deferredWorld store ops).proxies.getD i newProxy = boundProxy i) := by
  have hD : deferredWorld store ops
      = drainJobs { waitingStart store with
          proxies := rangeProxies 0 ops,
          queue := ([] : List (StoreOp × Nat)) } (indexJobs 0 ops) := by
    rw [deferredWorld,
      issueAll_waiting ops (waitingStart store) (by simp [waitingStart]),
      drainQueue]
    simp [waitingStart]
  obtain ⟨hs, hr, hb, hf, hq, ht⟩ :=
    drainJobs_spec ops
      { waitingStart store with
        proxies := rangeProxies 0 ops,
        queue := ([] : List (StoreOp × Nat)) } 0
      (fun i hi => by simpa using rangeProxies_getD ops 0 i hi)
  constructor
  · rw [hD, hq]
  · intro i hi
    have := hb i hi
    rw [hD]
    simpa [waitingStart] using this

/-- C8.  An `IDBRequestProxy` before binding: reading `result` or `error`
throws `InvalidStateError`; `addEventListener`/`removeEventListener` record
the subscription for replay, touching no real request.  `_provide` binds the
proxy (setting `_request`), clears its recorded subscriptions, and forwards
every queued subscription to the real request in FIFO order.  Binding
happens at most once: a hooked call never alters an existing proxy, and a
drain binds each capture-time proxy to its own request and empties the
queue, so re-running the drain changes nothing. -/
theorem C8_proxy_prebinding_contract :
    (∀ (p : IDBRequestProxy) (reqs : List RealRequest), p._request = none →
      proxyResult p reqs = .error requestNotReadyErr ∧
      proxyError p reqs = .error requestNotReadyErr) ∧
    (∀ (p : IDBRequestProxy) (reqs : List RealRequest) (ty : String) (l : Nat),
      p._request = none →
      proxyAddEventListener p reqs ty l
        = ({ p with _handlers := p._handlers ++ [.add ty l] }, reqs) ∧
      proxyRemoveEventListener p reqs ty l
        = ({ p with _handlers := p._handlers ++ [.remove ty l] }, reqs)) ∧
    (∀ (p : IDBRequestProxy) (r : RealRequest) (rid : Nat),
      (provide p r rid).1._request = some rid ∧
      (provide p r rid).1._handlers = [] ∧
      ((∀ s ∈ p._handlers, ∃ ty l, s = SubAction.add ty l) →
        (provide p r rid).2.listeners
          = r.listeners ++ p._handlers.map subPair)) ∧
    (∀ (m : OpsWorld) (op : StoreOp) (j : Nat), j < m.proxies.length →
      (hookedCall m op).1.proxies.getD j newProxy = m.proxies.getD j newProxy) ∧
    (∀ (store : List (Nat × Nat)) (ops : List StoreOp),
      (deferredWorld store ops).queue = [] ∧
      drainQueue (deferredWorld store ops) = deferredWorld store ops ∧
      (∀ i, i < ops.length →
        ((deferredWorld store ops).proxies.getD i newProxy)._request = some i)) := by
  refine ⟨?_, ?_, ?_, ?_, ?_⟩
  · intro p reqs h
    exact ⟨by simp [proxyResult, h], by simp [proxyError, h]⟩
  · intro p reqs ty l h
    exact ⟨by simp [proxyAddEventListener, h],
           by simp [proxyRemoveEventListener, h]⟩
  · intro p r rid
    refine ⟨rfl, rfl, ?_⟩
    intro h
    show (p._handlers.foldl applySub
      { r with onsuccess := p._onsuccess, onerror := p._onerror }).listeners
      = r.listeners ++ p._handlers.map subPair
    rw [foldl_applySub_adds p._handlers _ h]
  · intro m op j hj
    unfold hookedCall
    split
    · simp [dispatchOp]
    · simp only [proxyAddEventListener, newProxy]
      show (m.proxies ++ [_]).getD j newProxy = m.proxies.getD j newProxy
      simp [List.getD_eq_getElem?_getD, List.getElem?_append_left hj]
  · intro store ops
    obtain ⟨hq, hb⟩ := deferredWorld_facts store ops
    refine ⟨hq, ?_, ?_⟩
    · rw [drainQueue, hq]
      show { deferredWorld store ops with queue := [] } = deferredWorld store ops
      rw [← hq]
    · intro i hi
      rw [hb i hi]
      rfl

/-- Witness for C8 at a concrete unbound proxy, provide call and drain. -/
theorem C8_proxy_prebinding_witness :
    proxyResult newProxy [] = .error requestNotReadyErr ∧
    (provide (queuedProxy 0) (doneRequest (.ok (.tag 3))) 0).2.listeners
      = [("success", 0), ("error", 1)] ∧
    ((deferredWorld [(1, 10)] [.get 1]).proxies.getD 0 newProxy)._request = some 0 :=
  ⟨(C8_proxy_prebinding_contract.1 newProxy [] rfl).1,
   by
     have := (C8_proxy_prebinding_contract.2.2.1 (queuedProxy 0)
       (doneRequest (.ok (.tag 3))) 0).2.2
       (by intro s hs
           simp only [queuedProxy] at hs
           rcases List.mem_cons.mp hs with h | h
           · exact ⟨"success", 0, h⟩
           · rcases List.mem_singleton.mp h with rfl
             exact ⟨"error", 1, rfl⟩)
     simpa [queuedProxy, doneRequest, subPair] using this,
   (C8_proxy_prebinding_contract.2.2.2.2 [(1, 10)] [.get 1]).2.2 0 (by decide)⟩

/-- C10.  The proxy's `readyState` getter never throws: before binding it
returns `"pending"`; after binding it returns the bound real request's
`readyState`. -/
theorem C10_proxy_readyState_total :
    (∀ (p : IDBRequestProxy) (reqs : List RealRequest),
      ∃ s, proxyReadyState p reqs = .ok s) ∧
    (∀ (p : IDBRequestProxy) (reqs : List RealRequest),
      p._request = none → proxyReadyState p reqs = .ok "pending") ∧
    (∀ (p : IDBRequestProxy) (reqs : List RealRequest) (rid : Nat),
      p._request = some rid →
      proxyReadyState p reqs = .ok (reqs.getD rid blankRequest).readyState) := by
  refine ⟨?_, ?_, ?_⟩
  · intro p reqs
    unfold proxyReadyState
    cases p._request with
    | none => exact ⟨"pending", rfl⟩
    | some rid => exact ⟨_, rfl⟩
  · intro p reqs h
    simp [proxyReadyState, h]
  · intro p reqs rid h
    simp [proxyReadyState, h]

/-- Witness for C10: an unbound proxy reads `"pending"`, a bound one reads
its request's `readyState`. -/
theorem C10_proxy_readyState_witness :
    proxyReadyState newProxy [] = .ok "pending" ∧
    proxyReadyState (boundProxy 0) [doneRequest (.ok .undef)] = .ok "done" :=
  ⟨C10_proxy_readyState_total.2.1 newProxy [] rfl,
   C10_proxy_readyState_total.2.2 (boundProxy 0) [doneRequest (.ok .undef)] 0 rfl⟩

/-!
Cursor model: the hooked `continue`/`advance` methods (lines 376-405)
operating on a cursor's originating request handle (`cursor._request`,
associated at lines 366-369).  The host behaviour the hook relies on is the
IndexedDB cursor contract: a step re-dispatch reuses the cursor's one
request handle — resetting its `readyState` to `"pending"`, never allocating
a new handle — and its completion fires `success` on that same handle with
`readyState` back at `"done"`.
-/

/-- World of the cursor model: whether the transaction's reported state is
`'waiting'`; the transaction's deferred queue (step closures, opaque); the
number of request handles in existence; the originating request's
`readyState` and current result; the one-shot `success` listeners currently
subscribed on that request (each is the resolver of one step-adapter
promise, identified by its promise id); and the adapter promise heap. -/
structure CursorWorld where
  txWaiting : Bool
  queue : List Unit
  requestCount : Nat
  readyState : String
  result : JSVal
  listeners : List Nat
  promises : List PStatus
deriving Repr, DecidableEq

/-- Embedding of a hooked cursor step method (lines 383-403).  If the
reported state is not `'waiting'`, the original method re-dispatches on the
cursor's originating request (the host resets its `readyState` to
`"pending"`); otherwise the step closure is pushed onto the transaction's
queue.  Either way a fresh promise is created and a self-removing `success`
listener resolving it is added on `$this._request` — the originating
handle; no request handle is allocated. -/
def hookedStep (m : CursorWorld) : CursorWorld × Nat :=
  let m1 :=
    if m.txWaiting then
      { m with queue := m.queue ++ [()] }
    else
      { m with readyState := "pending" }
  let pid := m1.promises.length
  ({ m1 with promises := m1.promises ++ [PStatus.pending],
             listeners := m1.listeners ++ [pid] }, pid)

/-- Resolve a batch of one-shot adapters with the delivered value. -/
def resolveAll (ps : List PStatus) (ls : List Nat) (v : JSVal) : List PStatus :=
  ls.foldl (fun acc pid => acc.set pid (.settled (.fulfilled v))) ps

/-- The host delivers the step's `success` on the originating request:
`readyState` returns to `"done"`, the result updates, and every one-shot
listener runs — removing itself and resolving its adapter with
`e.target.result` (lines 398-401). -/
def fireSuccess (m : CursorWorld) (v : JSVal) : CursorWorld :=
  { m with readyState := "done", result := v,
           promises := resolveAll m.promises m.listeners v,
           listeners := [] }

theorem getD_set_self {α : Type} (l : List α) (i : Nat) (y d : α)
    (h : i < l.length) : (l.set i y).getD i d = y := by
  simp [List.getD_eq_getElem?_getD, List.getElem?_set_self (by simpa using h)]

theorem resolveAll_getD (ls : List Nat) :
    ∀ (ps : List PStatus) (pid : Nat) (v : JSVal), pid < ps.length →
      (resolveAll ps ls v).getD pid .pending
        = if pid ∈ ls then .settled (.fulfilled v) else ps.getD pid .pending := by
  induction ls with
  | nil => intro ps pid v hp; simp [resolveAll]
  | cons l0 ls ih =>
    intro ps pid v hp
    rw [resolveAll, List.foldl_cons]
    have hlen : pid < (ps.set l0 (.settled (.fulfilled v))).length := by
      simpa using hp
    have := ih (ps.set l0 (.settled (.fulfilled v))) pid v hlen
    rw [resolveAll] at this
    rw [this]
    by_cases heq : pid = l0
    · subst heq
      rw [if_pos (List.mem_cons_self _ _)]
      by_cases hmem : pid ∈ ls
      · rw [if_pos hmem]
      · rw [if_neg hmem, getD_set_self _ _ _ _ hp]
    · by_cases hmem : pid ∈ ls
      · rw [if_pos hmem, if_pos (List.mem_cons_of_mem _ hmem)]
      · rw [if_neg hmem, if_neg (by simp [heq, hmem]),
          getD_set_ne _ _ _ _ _ heq]

/-- C9 scenario: a cursor freshly opened while the transaction is active
(its originating request has fired once, `readyState` `"done"`). -/
def cursorStart : CursorWorld :=
  { txWaiting := false, queue := [], requestCount := 1, readyState := "done",
    result := .tag 0, listeners := [], promises := [] }

/-- C9 scenario: first step and its completion. -/
def cursorStep1 : CursorWorld × Nat := hookedStep cursorStart

/-- C9 scenario: after the first step's success fires. -/
def cursorDone1 : CursorWorld := fireSuccess cursorStep1.1 (.tag 1)

/-- C9 scenario: second step. -/
def cursorStep2 : CursorWorld × Nat := hookedStep cursorDone1

/-- C9 scenario: after the second step's success fires. -/
def cursorDone2 : CursorWorld := fireSuccess cursorStep2.1 (.tag 2)

/-- C9 scenario: third step. -/
def cursorStep3 : CursorWorld × Nat := hookedStep cursorDone2

/-- C9 scenario: after the third step's success fires. -/
def cursorDone3 : CursorWorld := fireSuccess cursorStep3.1 (.tag 3)

/-- C9.  A cursor step re-dispatches through the same active/deferred rule
as ordinary operations, on the cursor's originating request handle: while
not `'waiting'` it dispatches at once (the handle's readiness resets to
`"pending"`); while `'waiting'` the step closure joins the transaction's
queue and nothing is dispatched.  Each call creates a fresh
single-resolution adapter promise (id = current heap size, so distinct from
every earlier one) subscribed on that same handle; no request handle is
ever allocated.  Success delivered on the originating handle resolves
exactly the subscribed adapters with the delivered result and removes them.
In the three-step scenario the third adapter is a distinct future instance
from the first, readiness cycles `"pending"` → `"done"` on every step, and
all three adapters resolve through the single originating handle. -/
theorem C9_cursor_steps_reuse_originating_request :
    (∀ m : CursorWorld, m.txWaiting = false →
      hookedStep m
        = ({ m with readyState := "pending",
                    promises := m.promises ++ [PStatus.pending],
                    listeners := m.listeners ++ [m.promises.length] },
           m.promises.length)) ∧
    (∀ m : CursorWorld, m.txWaiting = true →
      hookedStep m
        = ({ m with queue := m.queue ++ [()],
                    promises := m.promises ++ [PStatus.pending],
                    listeners := m.listeners ++ [m.promises.length] },
           m.promises.length)) ∧
    (∀ m : CursorWorld, (hookedStep m).1.requestCount = m.requestCount ∧
      (hookedStep m).2 = m.promises.length) ∧
    (∀ (m : CursorWorld) (v : JSVal) (pid : Nat),
      pid ∈ m.listeners → pid < m.promises.length →
      (fireSuccess m v).promises.getD pid .pending
          = .settled (.fulfilled v) ∧
      (fireSuccess m v).listeners = [] ∧
      (fireSuccess m v).readyState = "done" ∧
      (fireSuccess m v).requestCount = m.requestCount) ∧
    (cursorStep1.2 = 0 ∧ cursorStep3.2 = 2 ∧ cursorStep3.2 ≠ cursorStep1.2 ∧
      cursorStep1.1.readyState = "pending" ∧ cursorDone1.readyState = "done" ∧
      cursorStep2.1.readyState = "pending" ∧ cursorDone2.readyState = "done" ∧
      cursorStep3.1.readyState = "pending" ∧ cursorDone3.readyState = "done" ∧
      cursorDone3.promises
        = [.settled (.fulfilled (.tag 1)), .settled (.fulfilled (.tag 2)),
           .settled (.fulfilled (.tag 3))] ∧
      cursorDone3.requestCount = cursorStart.requestCount) := by
  refine ⟨?_, ?_, ?_, ?_, ?_⟩
  · intro m h
    simp [hookedStep, h]
  · intro m h
    simp [hookedStep, h]
  · intro m
    unfold hookedStep
    split <;> exact ⟨rfl, rfl⟩
  · intro m v pid hmem hlt
    refine ⟨?_, rfl, rfl, rfl⟩
    show (resolveAll m.promises m.listeners v).getD pid .pending
      = .settled (.fulfilled v)
    rw [resolveAll_getD m.listeners m.promises pid v hlt, if_pos hmem]
  · exact ⟨by decide, by decide, by decide, by decide, by decide, by decide,
      by decide, by decide, by decide, by decide, by decide⟩

/-- Witness for C9 at concrete inputs: a non-waiting step on the scenario's
start world, and success delivery resolving the subscribed adapter. -/
theorem C9_cursor_steps_witness :
    (hookedStep cursorStart).2 = 0 ∧
    (fireSuccess cursorStep1.1 (.tag 1)).promises.getD 0 .pending
      = .settled (.fulfilled (.tag 1)) :=
  ⟨(C9_cursor_steps_reuse_originating_request.2.2.1 cursorStart).2,
   (C9_cursor_steps_reuse_originating_request.2.2.2.1 cursorStep1.1 (.tag 1) 0
     (by decide) (by decide)).1⟩
